import Mathlib

/-!
# Shared thread-safe log pipeline (`SRC/UTILS/shared_ts_log.c`)

A sequential shallow embedding of the log-record pipeline: the item pool
(`log_free_message_queue_p`), the bounded message queue
(`log_message_queue_p`), the thread registry (`thread_context_htbl`), the sink
table (`logger_callback`), the flush dispatcher and the flush task.

The process-wide singleton `g_shared_log` becomes an explicit `State` that every
operation takes and returns.  Besides the fields of `oai_shared_log_t` the state
carries the environment the C code talks to: the outcomes of the coming
allocation attempts, the next fresh heap address and the chronological trace of
externally visible effects (sink calls, diagnostics, frees, announcements).
Operations that can end the process (a failed `AssertFatal`, a call through a
null function pointer) return `Except Fault _`.

The embedding is sequential: the calls of the threads are interleaved call by
call, and the identity of the calling thread (`pthread_self()`) is an argument
`p`.  An item is the content of its container together with the container's
address; every container is held in one place at a time (by its producer, by
the queue or by the pool).
-/

namespace SharedTsLog

/-! ## Constants -/

/-- Modelled from the spec: the enumeration `sh_ts_log_app_id_t` of
`shared_ts_log.h`, which is not among the sources; the spec gives the valid
client range as `[0, 2)`. -/
def MIN_SH_TS_LOG_CLIENT : Int := 0

/-- Modelled from the spec: the text-log client of `sh_ts_log_app_id_t`, the
first of the two client ids of the range `[0, 2)`. -/
def SH_TS_LOG_TXT : Int := 0

/-- Modelled from the spec: the message-chart client of `sh_ts_log_app_id_t`,
the second of the two client ids of the range `[0, 2)`. -/
def SH_TS_LOG_MSC : Int := 1

/-- Modelled from the spec: the end of the client range of
`sh_ts_log_app_id_t`, the size of the sink table. -/
def MAX_SH_TS_LOG_CLIENT : Int := 2

def LOG_MAX_QUEUE_ELEMENTS : Nat := 1024

def LOG_MESSAGE_MIN_ALLOC_SIZE : Nat := 256

def LOG_FLUSH_PERIOD_SEC : Nat := 0

def LOG_FLUSH_PERIOD_MICRO_SEC : Nat := 50000

/-! ## Data model -/

/-- Modelled from the spec: a `bstring` of bstrlib (not among the sources), a
growable byte buffer; `none` is the null pointer, `some bytes` a buffer holding
`bytes`. -/
abbrev bstring := Option (List Nat)

/-- Modelled from the spec: `btrunc(b, n)` of bstrlib cuts the buffer down to at
most `n` bytes and leaves a null `bstring` alone. -/
def btrunc (b : bstring) (n : Nat) : bstring :=
  match b with
  | none => none
  | some bytes => some (bytes.take n)

/-- Modelled from the spec: `blength(b)` of bstrlib, the number of bytes held,
0 for the null pointer. -/
def blength (b : bstring) : Nat :=
  match b with
  | none => 0
  | some bytes => bytes.length

/-- The container `shared_log_queue_item_t`: `addr` is the address of the
container (its identity), `app_id` the client id, `bstr` the buffer. -/
structure shared_log_queue_item_t where
  addr : Nat
  app_id : Int
  bstr : bstring
deriving DecidableEq, Repr

/-- The per-thread context `log_thread_ctxt_t`; the only field this file
writes is `tid`. -/
structure log_thread_ctxt_t where
  tid : Nat
deriving DecidableEq, Repr

/-- The two sink functions `shared_log_init` installs. -/
inductive logger_fn where
  | log_flush_message
  | msc_flush_message
deriving DecidableEq, Repr

/-- Externally visible effects, recorded in the order they happen. -/
inductive Event where
  /-- A sink is invoked: `(*g_shared_log.logger_callback[id])(item_p)`. -/
  | call (fn : logger_fn) (item : shared_log_queue_item_t)
  /-- The diagnostic "Error while reusing shared_log_queue_item_t". -/
  | err_reuse_item
  /-- The diagnostic "Error bad logger identifier: %d". -/
  | err_bad_logger (app_id : Int)
  /-- The diagnostic "Error Could not register log thread context". -/
  | err_register_ctxt
  /-- The diagnostic "Error Could not create log thread context". -/
  | err_create_ctxt
  /-- The call of `free_wrapper` on an item container; `item` is its content at that time. -/
  | free_item (item : shared_log_queue_item_t)
  /-- The call of `bdestroy_wrapper` on the buffer of the container at `addr`. -/
  | bdestroy (addr : Nat)
  /-- The call of `free_wrapper` on the thread context of thread `tid`. -/
  | free_ctxt (tid : Nat)
  /-- The call of `lfds611_queue_use` by thread `tid`. -/
  | queue_use (tid : Nat)
  /-- The call of `lfds611_stack_use` by thread `tid`. -/
  | stack_use (tid : Nat)
  /-- The registry was released by `hashtable_ts_destroy`. -/
  | hashtable_destroy
  /-- The message "Initializing shared logging". -/
  | info_init
  /-- The message "Initializing OAI logging Done". -/
  | info_init_done
  /-- The message "[TRACE] Entering shared_log_exit". -/
  | info_entering_exit
  /-- The message "[TRACE] Leaving shared_log_exit". -/
  | info_leaving_exit
deriving DecidableEq, Repr

/-- The ways the process ends abnormally. -/
inductive Fault where
  /-- Failed `AssertFatal((item_p), "Allocation of log container failed")`. -/
  | alloc_container
  /-- Failed `AssertFatal((app_id >= MIN_SH_TS_LOG_CLIENT), ...)`. -/
  | app_id_below_min
  /-- Failed `AssertFatal((app_id < MAX_SH_TS_LOG_CLIENT), ...)`. -/
  | app_id_above_max
  /-- Failed `AssertFatal((item_p->bstr), "Allocation of buf in log container failed")`. -/
  | alloc_buf
  /-- A call through a null entry of `logger_callback`. -/
  | null_callback
  /-- Failed `AssertFatal (NULL != g_shared_log.thread_context_htbl, ...)`. -/
  | init_hashtable
  /-- Failed `AssertFatal(NULL != thread_ctxt, ...)` in `shared_log_init`. -/
  | init_thread_ctxt
  /-- Failed `AssertFatal (0, "lfds611_stack_new failed!")`. -/
  | init_stack
  /-- Failed `AssertFatal (rv, "lfds611_queue_new failed!")`. -/
  | init_queue
  /-- Failed `AssertFatal (rv, "lfds611_stack_guaranteed_push failed for item %u")`. -/
  | init_push
deriving DecidableEq, Repr

/-- The bounded FIFO of the external library liblfds (`lfds611_queue_state`):
the queued elements, oldest first, and the number of elements it was created
for. -/
structure lfds611_queue_state where
  elements : List shared_log_queue_item_t
  number_elements : Nat
deriving DecidableEq, Repr

/-- The state of the pipeline: the fields of `oai_shared_log_t` followed by the
environment. -/
structure State where
  log_start_time_second : Int
  log_message_number : Nat
  /-- The message queue `log_message_queue_p`. -/
  log_message_queue : lfds611_queue_state
  /-- The pool `log_free_message_queue_p`, a stack, top first. -/
  log_free_message_queue : List shared_log_queue_item_t
  /-- The registry `thread_context_htbl`: key and context of every node;
  `none` when there is no table (never created, or destroyed). -/
  thread_context_htbl : Option (List (Nat × log_thread_ctxt_t))
  /-- The sink table `logger_callback[MAX_SH_TS_LOG_CLIENT]`; `none` is a null
  function pointer. -/
  logger_callback : List (Option logger_fn)
  /-- Outcomes of the coming allocation attempts (`true`: the allocation
  succeeds); an allocation attempted after the list is used up succeeds. -/
  alloc : List Bool
  /-- The address the next successful container allocation returns. -/
  next_addr : Nat
  /-- The effects so far, oldest first. -/
  trace : List Event
deriving DecidableEq, Repr

/-! ## The environment: allocator, liblfds, hashtable -/

/-- One allocation attempt (`malloc`, `calloc`): its outcome and the state with
the outcome consumed. -/
def try_alloc (s : State) : Bool × State :=
  match s.alloc with
  | [] => (true, s)
  | b :: rest => (b, { s with alloc := rest })

/-- Append effects to the trace. -/
def emit (s : State) (es : List Event) : State :=
  { s with trace := s.trace ++ es }

/-- The call `lfds611_queue_enqueue` of the external library liblfds: `none` is
the return value 0 (no free element: the queue holds `number_elements` items
already), `some q` is the return value 1 with the item appended. -/
def lfds611_queue_enqueue (qs : lfds611_queue_state) (user_data : shared_log_queue_item_t) :
    Option lfds611_queue_state :=
  if qs.elements.length < qs.number_elements then
    some { qs with elements := qs.elements ++ [user_data] }
  else none

/-- The call `lfds611_queue_dequeue` of liblfds: `none` is the return value 0
(empty queue), otherwise the oldest item and the remaining queue. -/
def lfds611_queue_dequeue (qs : lfds611_queue_state) :
    Option (shared_log_queue_item_t × lfds611_queue_state) :=
  match qs.elements with
  | [] => none
  | x :: rest => some (x, { qs with elements := rest })

/-- The call `lfds611_stack_pop` of liblfds: `none` is the return value 0 (empty
stack), otherwise the top item and the remaining stack. -/
def lfds611_stack_pop (ss : List shared_log_queue_item_t) :
    Option (shared_log_queue_item_t × List shared_log_queue_item_t) :=
  match ss with
  | [] => none
  | x :: rest => some (x, rest)

/-- The call `lfds611_stack_guaranteed_push` of liblfds on the pool: it
allocates a fresh stack element and so is rejected (return value 0, `false`)
only when that allocation fails. -/
def lfds611_stack_guaranteed_push (s : State) (user_data : shared_log_queue_item_t) :
    Bool × State :=
  match try_alloc s with
  | (true, s1) => (true, { s1 with log_free_message_queue := user_data :: s1.log_free_message_queue })
  | (false, s1) => (false, s1)

/-- Return codes of the hashtable used here. -/
inductive hashtable_rc_t where
  | HASH_TABLE_OK
  | HASH_TABLE_INSERT_OVERWRITTEN_DATA
  | HASH_TABLE_KEY_NOT_EXISTS
  | HASH_TABLE_BAD_PARAMETER_HASHTABLE
  | HASH_TABLE_SYSTEM_ERROR
deriving DecidableEq, Repr

/-- Modelled from the spec: `hashtable_ts_is_key_exists` of the hashtable module
(not among the sources): whether the registry maps the thread identity. -/
def hashtable_ts_is_key_exists (htbl : Option (List (Nat × log_thread_ctxt_t))) (key : Nat) :
    hashtable_rc_t :=
  match htbl with
  | none => .HASH_TABLE_BAD_PARAMETER_HASHTABLE
  | some nodes =>
    if key ∈ nodes.map Prod.fst then .HASH_TABLE_OK else .HASH_TABLE_KEY_NOT_EXISTS

/-- Modelled from the spec: `hashtable_ts_insert` of the hashtable module (not
among the sources): insert-if-absent, no update; the node it allocates can fail
to be allocated. -/
def hashtable_ts_insert (s : State) (key : Nat) (data : log_thread_ctxt_t) :
    hashtable_rc_t × State :=
  match s.thread_context_htbl with
  | none => (.HASH_TABLE_BAD_PARAMETER_HASHTABLE, s)
  | some nodes =>
    if key ∈ nodes.map Prod.fst then (.HASH_TABLE_INSERT_OVERWRITTEN_DATA, s)
    else
      match try_alloc s with
      | (true, s1) => (.HASH_TABLE_OK, { s1 with thread_context_htbl := some (nodes ++ [(key, data)]) })
      | (false, s1) => (.HASH_TABLE_SYSTEM_ERROR, s1)

/-- Modelled from the spec: `hashtable_ts_destroy` of the hashtable module (not
among the sources): releases every context through the table's free function
(`free_wrapper`) and then the table; no table is left. -/
def hashtable_ts_destroy (s : State) : State :=
  match s.thread_context_htbl with
  | none => s
  | some nodes =>
    { s with
      thread_context_htbl := none
      trace := s.trace ++ nodes.map (fun n => Event.free_ctxt n.1) ++ [Event.hashtable_destroy] }

/-! ## The operations of `shared_ts_log.c` -/

/-- The function `shared_log_get_start_time_sec`. -/
def shared_log_get_start_time_sec (s : State) : Int :=
  s.log_start_time_second

/-- The function `shared_log_reuse_item` (release): truncate the buffer, push
the item on the pool; when the push is rejected report it and free the
container. -/
def shared_log_reuse_item (s : State) (item_p : shared_log_queue_item_t) : State :=
  let item := { item_p with bstr := btrunc item_p.bstr 0 }
  match lfds611_stack_guaranteed_push s item with
  | (true, s1) => s1
  | (false, s1) => emit s1 [Event.err_reuse_item, Event.free_item item]

/-- The function `create_new_log_queue_item`: allocate a zeroed container, check
the client id, allocate an empty buffer; every failure is fatal. -/
def create_new_log_queue_item (s : State) (app_id : Int) :
    Except Fault (shared_log_queue_item_t × State) :=
  match try_alloc s with
  | (false, _) => .error .alloc_container
  | (true, s1) =>
    if ¬ (app_id ≥ MIN_SH_TS_LOG_CLIENT) then .error .app_id_below_min
    else if ¬ (app_id < MAX_SH_TS_LOG_CLIENT) then .error .app_id_above_max
    else
      match try_alloc s1 with
      | (false, _) => .error .alloc_buf
      | (true, s2) =>
        .ok ({ addr := s2.next_addr, app_id := app_id, bstr := some [] },
             { s2 with next_addr := s2.next_addr + 1 })

/-- The function `get_new_log_queue_item` (acquire): pop an item from the pool,
set its client id and truncate its buffer; on an empty pool create a new
item. -/
def get_new_log_queue_item (s : State) (app_id : Int) :
    Except Fault (shared_log_queue_item_t × State) :=
  match lfds611_stack_pop s.log_free_message_queue with
  | none => create_new_log_queue_item s app_id
  | some (item_p, rest) =>
    .ok ({ item_p with app_id := app_id, bstr := btrunc item_p.bstr 0 },
         { s with log_free_message_queue := rest })

/-- The function `shared_log_start_use` (ensure_registered) called by thread
`p`: when the registry does not hold `p`, announce the thread to the queue and
the stack, allocate a context and insert it. -/
def shared_log_start_use (s : State) (p : Nat) : State :=
  match hashtable_ts_is_key_exists s.thread_context_htbl p with
  | .HASH_TABLE_KEY_NOT_EXISTS =>
    let s1 := emit s [Event.queue_use p, Event.stack_use p]
    match try_alloc s1 with
    | (true, s2) =>
      match hashtable_ts_insert s2 p { tid := p } with
      | (.HASH_TABLE_OK, s3) => s3
      | (_, s3) => emit s3 [Event.err_register_ctxt, Event.free_ctxt p]
    | (false, s2) => emit s2 [Event.err_create_ctxt]
  | _ => s

/-- The entry of the sink table at a client id that passed the range check. -/
def logger_callback_at (s : State) (app_id : Int) : Option logger_fn :=
  (s.logger_callback.get? app_id.toNat).join

/-- The loop of `shared_log_flush_messages` over the queued items: each
iteration dequeues the oldest item, calls its sink when the client id is in
range (a null table entry ends the process) or reports the bad id, and releases
the item. -/
def flush_items : List shared_log_queue_item_t → State → Except Fault State
  | [], s => .ok s
  | item_p :: rest, s =>
    let s0 := { s with log_message_queue := { s.log_message_queue with elements := rest } }
    if item_p.app_id ≥ MIN_SH_TS_LOG_CLIENT ∧ item_p.app_id < MAX_SH_TS_LOG_CLIENT then
      match logger_callback_at s0 item_p.app_id with
      | some fn => flush_items rest (shared_log_reuse_item (emit s0 [Event.call fn item_p]) item_p)
      | none => .error .null_callback
    else
      flush_items rest
        (shared_log_reuse_item (emit s0 [Event.err_bad_logger item_p.app_id]) item_p)

/-- The function `shared_log_flush_messages` (drain). -/
def shared_log_flush_messages (s : State) : Except Fault State :=
  flush_items s.log_message_queue.elements s

/-- The function `shared_log_exit` (shutdown): a final drain, then the registry
is destroyed. -/
def shared_log_exit (s : State) : Except Fault State :=
  match shared_log_flush_messages (emit s [Event.info_entering_exit]) with
  | .error f => .error f
  | .ok s1 => .ok (emit (hashtable_ts_destroy s1) [Event.info_leaving_exit])

/-- The function `shared_log_item` (submit) called by thread `p`; `none` is a
null `messageP`. -/
def shared_log_item (s : State) (p : Nat) (messageP : Option shared_log_queue_item_t) : State :=
  match messageP with
  | none => s
  | some m =>
    let s1 := shared_log_start_use s p
    match lfds611_queue_enqueue s1.log_message_queue m with
    | some q => { s1 with log_message_queue := q }
    | none =>
      let m1 := { m with bstr := btrunc m.bstr 0 }
      match lfds611_stack_guaranteed_push s1 m1 with
      | (true, s2) => s2
      | (false, s2) =>
        match m1.bstr with
        | some _ => emit s2 [Event.bdestroy m1.addr, Event.free_item { m1 with bstr := none }]
        | none => emit s2 [Event.free_item m1]

/-- The statically zero-initialised global `g_shared_log`: every sink-table
entry is a null pointer and there is no registry; the null queue and stack
pointers are written as a queue of no elements and an empty pool. -/
def g_shared_log : State :=
  { log_start_time_second := 0
    log_message_number := 0
    log_message_queue := { elements := [], number_elements := 0 }
    log_free_message_queue := []
    thread_context_htbl := none
    logger_callback := [none, none]
    alloc := []
    next_addr := 0
    trace := [] }

/-- The pre-seeding loop of `shared_log_init`: `n` times create an item for
`MIN_SH_TS_LOG_CLIENT` and push it on the pool; a rejected push is fatal. -/
def init_seed : Nat → State → Except Fault State
  | 0, s => .ok s
  | n + 1, s =>
    match create_new_log_queue_item s MIN_SH_TS_LOG_CLIENT with
    | .error f => .error f
    | .ok (item_p, s1) =>
      match lfds611_stack_guaranteed_push s1 item_p with
      | (true, s2) => init_seed n s2
      | (false, _) => .error .init_push

/-- The function `shared_log_init` run by thread `p` on the global `s`.
`MESSAGE_CHART_GENERATOR` is the build flag of the `#if`, `start_time_sec` the
second `gettimeofday` reports and `log_message` the logging call that ends the
function (it belongs to the log module, outside this file); it gets the pointer
`thread_ctxt`, null (`none`) once `free_wrapper` has released the context.  The
loop bound `max_threadsP * 30` is taken without `int` overflow. -/
def shared_log_init (MESSAGE_CHART_GENERATOR : Bool)
    (log_message : Option log_thread_ctxt_t → State → Except Fault State)
    (max_threadsP : Int) (p : Nat) (start_time_sec : Int) (s : State) : Except Fault State :=
  let s1 := { s with log_start_time_second := start_time_sec }
  let s2 := { s1 with logger_callback := s1.logger_callback.set SH_TS_LOG_TXT.toNat
                        (some logger_fn.log_flush_message) }
  let s3 := if MESSAGE_CHART_GENERATOR then
      { s2 with logger_callback := s2.logger_callback.set SH_TS_LOG_MSC.toNat
                  (some logger_fn.msc_flush_message) }
    else s2
  let s4 := emit s3 [Event.info_init]
  -- bfromcstr: the name of the hashtable
  let s5 := (try_alloc s4).2
  -- hashtable_ts_create
  match try_alloc s5 with
  | (false, _) => .error .init_hashtable
  | (true, s6) =>
    let s7 := { s6 with thread_context_htbl := some [] }
    -- calloc of the thread context
    match try_alloc s7 with
    | (false, _) => .error .init_thread_ctxt
    | (true, s8) =>
      let r9 : Option log_thread_ctxt_t × State :=
        match hashtable_ts_insert s8 p { tid := p } with
        | (.HASH_TABLE_OK, t) => (some { tid := p }, t)
        | (_, t) => (none, emit t [Event.err_register_ctxt, Event.free_ctxt p])
      let thread_ctxt := r9.1
      let s9 := r9.2
      -- lfds611_stack_new
      match try_alloc s9 with
      | (false, _) => .error .init_stack
      | (true, s10) =>
        let s11 := { s10 with log_free_message_queue := [] }
        -- lfds611_queue_new
        match try_alloc s11 with
        | (false, _) => .error .init_queue
        | (true, s12) =>
          let s13 := { s12 with log_message_queue :=
                          { elements := [], number_elements := LOG_MAX_QUEUE_ELEMENTS } }
          let s14 := shared_log_start_use s13 p
          match init_seed (max_threadsP * 30).toNat s14 with
          | .error f => .error f
          | .ok s15 => log_message thread_ctxt (emit s15 [Event.info_init_done])

/-! ## The flush task -/

inductive timer_type_t where
  | TIMER_PERIODIC
  | TIMER_ONE_SHOT
deriving DecidableEq, Repr

/-- A timer armed for the task `TASK_SHARED_TS_LOG`. -/
structure timer_elm_t where
  timer_id : Nat
  interval_sec : Nat
  interval_us : Nat
  type : timer_type_t
deriving DecidableEq, Repr

/-- The identifiers of the messages the task can receive. -/
inductive MessagesIds where
  | TIMER_HAS_EXPIRED
  | TERMINATE_MESSAGE
  | OTHER (id : Nat)
deriving DecidableEq, Repr

/-- The state of `shared_log_task`: the pipeline, the timers pending for the
task in the timer module, the id the timer module gives out next, the local
variable `timer_id`, and whether the task has left through `itti_exit_task`. -/
structure TaskState where
  log : State
  timers : List timer_elm_t
  next_timer_id : Nat
  timer_id : Nat
  exited : Bool
deriving DecidableEq, Repr

/-- Modelled from the spec: `timer_setup` of the timer module (not among the
sources) arms one timer of the given period and type for the task and stores
its id in `timer_id`. -/
def timer_setup (interval_sec interval_us : Nat) (type : timer_type_t) (ts : TaskState) :
    TaskState :=
  { ts with
    timers := ts.timers ++
      [{ timer_id := ts.next_timer_id, interval_sec := interval_sec,
         interval_us := interval_us, type := type }]
    next_timer_id := ts.next_timer_id + 1
    timer_id := ts.next_timer_id }

/-- Modelled from the spec: `timer_remove` of the timer module (not among the
sources) cancels the pending timer of that id. -/
def timer_remove (timer_id : Nat) (ts : TaskState) : TaskState :=
  { ts with timers := ts.timers.filter (fun t => t.timer_id ≠ timer_id) }

/-- Modelled from the spec: the expiry of the pending timer `t`, as the timer
module (not among the sources) handles it before it sends `TIMER_HAS_EXPIRED`:
a one-shot timer is no longer pending, a periodic one stays. -/
def timer_expire (t : timer_elm_t) (ts : TaskState) : TaskState :=
  match t.type with
  | .TIMER_ONE_SHOT => { ts with timers := ts.timers.erase t }
  | .TIMER_PERIODIC => ts

/-- The part of `shared_log_task` before its loop, run by thread `p`: register
the thread, arm the flush timer. -/
def shared_log_task_start (s : State) (p : Nat) : TaskState :=
  timer_setup LOG_FLUSH_PERIOD_SEC LOG_FLUSH_PERIOD_MICRO_SEC .TIMER_ONE_SHOT
    { log := shared_log_start_use s p, timers := [], next_timer_id := 0, timer_id := 0,
      exited := false }

/-- One turn of the loop of `shared_log_task`: `received` is what
`itti_receive_msg` delivered (`none`: no message); `itti_free` of the message
succeeds, and `itti_exit_task` ends the task. -/
def shared_log_task_loop (ts : TaskState) (received : Option MessagesIds) :
    Except Fault TaskState :=
  match received with
  | none => .ok ts
  | some .TIMER_HAS_EXPIRED =>
    match shared_log_flush_messages ts.log with
    | .error f => .error f
    | .ok l =>
      .ok (timer_setup LOG_FLUSH_PERIOD_SEC LOG_FLUSH_PERIOD_MICRO_SEC .TIMER_ONE_SHOT
            { ts with log := l })
  | some .TERMINATE_MESSAGE =>
    let ts1 := timer_remove ts.timer_id ts
    match shared_log_exit ts1.log with
    | .error f => .error f
    | .ok l => .ok { ts1 with log := l, exited := true }
  | some (.OTHER _) => .ok ts

/-- The states of the task before a `TERMINATE_MESSAGE`: the start, then any
number of loop turns on an expiry of a pending timer, on another message or on
none, with producers (thread `q`) acquiring, submitting and recycling items in
between. -/
inductive Reachable (s0 : State) (p : Nat) : TaskState → Prop where
  | start : Reachable s0 p (shared_log_task_start s0 p)
  | expiry (ts ts1 : TaskState) (t : timer_elm_t) :
      Reachable s0 p ts → t ∈ ts.timers →
      shared_log_task_loop (timer_expire t ts) (some .TIMER_HAS_EXPIRED) = .ok ts1 →
      Reachable s0 p ts1
  | other (ts ts1 : TaskState) (id : Nat) :
      Reachable s0 p ts → shared_log_task_loop ts (some (.OTHER id)) = .ok ts1 →
      Reachable s0 p ts1
  | idle (ts ts1 : TaskState) :
      Reachable s0 p ts → shared_log_task_loop ts none = .ok ts1 → Reachable s0 p ts1
  | submit (ts : TaskState) (q : Nat) (m : Option shared_log_queue_item_t) :
      Reachable s0 p ts → Reachable s0 p { ts with log := shared_log_item ts.log q m }
  | acquire (ts : TaskState) (app_id : Int) (item : shared_log_queue_item_t) (l : State) :
      Reachable s0 p ts → get_new_log_queue_item ts.log app_id = .ok (item, l) →
      Reachable s0 p { ts with log := l }
  | recycle (ts : TaskState) (item : shared_log_queue_item_t) :
      Reachable s0 p ts → Reachable s0 p { ts with log := shared_log_reuse_item ts.log item }

/-! ## Observations on states and traces -/

/-- The sink invocations of a trace, in order: the sink and the item it got. -/
def sink_calls (tr : List Event) : List (logger_fn × shared_log_queue_item_t) :=
  tr.filterMap (fun e => match e with
    | .call fn item => some (fn, item)
    | _ => none)

/-- The addresses of the containers a trace frees, in order. -/
def freed_addrs (tr : List Event) : List Nat :=
  tr.filterMap (fun e => match e with
    | .free_item item => some item.addr
    | _ => none)

/-- The addresses of the containers whose buffer a trace destroys, in order. -/
def bdestroyed_addrs (tr : List Event) : List Nat :=
  tr.filterMap (fun e => match e with
    | .bdestroy addr => some addr
    | _ => none)

/-- How often thread `p` was announced to the queue (`lfds611_queue_use`) and
to the stack (`lfds611_stack_use`). -/
def announcements (p : Nat) (tr : List Event) : Nat × Nat :=
  (tr.count (Event.queue_use p), tr.count (Event.stack_use p))

/-- The thread identities the registry holds, one per node. -/
def registry_keys (s : State) : List Nat :=
  match s.thread_context_htbl with
  | none => []
  | some nodes => nodes.map Prod.fst

/-- The item as release leaves it: the buffer truncated to length 0. -/
def recycled (x : shared_log_queue_item_t) : shared_log_queue_item_t :=
  { x with bstr := btrunc x.bstr 0 }

/-- The client id is in `[MIN_SH_TS_LOG_CLIENT, MAX_SH_TS_LOG_CLIENT)` and the
sink table holds a sink for it. -/
def has_sink (s : State) (x : shared_log_queue_item_t) : Prop :=
  x.app_id ≥ MIN_SH_TS_LOG_CLIENT ∧ x.app_id < MAX_SH_TS_LOG_CLIENT ∧
    (logger_callback_at s x.app_id).isSome = true

instance (s : State) (x : shared_log_queue_item_t) : Decidable (has_sink s x) :=
  inferInstanceAs (Decidable (_ ∧ _ ∧ _))

/-- The sink invocations a drain of the items `q` makes with the sink table of
`s`: one per item with a sink, in queue order. -/
def deliveries (s : State) (q : List shared_log_queue_item_t) :
    List (logger_fn × shared_log_queue_item_t) :=
  q.filterMap (fun x =>
    if x.app_id ≥ MIN_SH_TS_LOG_CLIENT ∧ x.app_id < MAX_SH_TS_LOG_CLIENT then
      (logger_callback_at s x.app_id).map (fun fn => (fn, x))
    else none)

/-- Submits by the given threads, in order: `shared_log_item` for each pair of a
thread and an item. -/
def submit_all (s : State) (xs : List (Nat × shared_log_queue_item_t)) : State :=
  xs.foldl (fun st x => shared_log_item st x.1 (some x.2)) s

/-- No coming allocation fails. -/
def alloc_never_fails (s : State) : Prop :=
  ∀ b ∈ s.alloc, b = true

instance (s : State) : Decidable (alloc_never_fails s) :=
  inferInstanceAs (Decidable (∀ b ∈ s.alloc, b = true))


/-- The state with the queue holding the items `q`. -/
def with_queue (s : State) (q : List shared_log_queue_item_t) : State :=
  { s with log_message_queue := { s.log_message_queue with elements := q } }

/-- The effect a drain records for a dequeued item before it releases it: the
sink call, or the bad-identifier report; `none` when the item is in range and
its table entry is null. -/
def step_event (s : State) (x : shared_log_queue_item_t) : Option Event :=
  if x.app_id ≥ MIN_SH_TS_LOG_CLIENT ∧ x.app_id < MAX_SH_TS_LOG_CLIENT then
    (logger_callback_at s x.app_id).map (fun fn => Event.call fn x)
  else some (Event.err_bad_logger x.app_id)

/-- The sink calls a drain has made when it returns; the fault when it does
not. -/
def drain_sink_calls (r : Except Fault State) :
    Except Fault (List (logger_fn × shared_log_queue_item_t)) :=
  match r with
  | .error f => .error f
  | .ok s => .ok (sink_calls s.trace)

/-- The addresses of the containers on the pool, top first. -/
def pool_addrs (s : State) : List Nat :=
  s.log_free_message_queue.map (fun x => x.addr)

/-- The addresses of the queued containers, oldest first. -/
def queue_addrs (s : State) : List Nat :=
  s.log_message_queue.elements.map (fun x => x.addr)

/-! ## Concrete states and items used to evaluate the code -/

/-- The pipeline as `shared_log_init` leaves it in a build without
`MESSAGE_CHART_GENERATOR`, when no allocation fails, `max_threadsP` is 0
(nothing pre-seeded), the calling thread is 7 and the closing `log_message`
logs nothing. -/
def st_init_no_msc : Except Fault State :=
  shared_log_init false (fun _ st => .ok st) 0 7 0 g_shared_log

/-- An item of the message-chart client holding two bytes. -/
def item_msc : shared_log_queue_item_t :=
  { addr := 100, app_id := SH_TS_LOG_MSC, bstr := some [104, 105] }

/-- A pipeline with both sinks installed, a queue of capacity 2, an empty pool
and thread 7 registered. -/
def st_cap2 : State :=
  { log_start_time_second := 0
    log_message_number := 0
    log_message_queue := { elements := [], number_elements := 2 }
    log_free_message_queue := []
    thread_context_htbl := some [(7, { tid := 7 })]
    logger_callback := [some .log_flush_message, some .msc_flush_message]
    alloc := []
    next_addr := 0
    trace := [] }

/-- Three text-log items. -/
def item_a : shared_log_queue_item_t := { addr := 1, app_id := SH_TS_LOG_TXT, bstr := some [97] }

def item_b : shared_log_queue_item_t := { addr := 2, app_id := SH_TS_LOG_TXT, bstr := some [98] }

def item_c : shared_log_queue_item_t := { addr := 3, app_id := SH_TS_LOG_TXT, bstr := some [99] }

/-- An item whose client id 99 is outside the range. -/
def item_99 : shared_log_queue_item_t := { addr := 9, app_id := 99, bstr := some [120] }


/-- The pipeline `st_cap2` when the next allocation attempt fails. -/
def st_reject : State := { st_cap2 with alloc := [false] }

/-- The pipeline `st_cap2` when the next two allocation attempts fail. -/
def st_reject2 : State := { st_cap2 with alloc := [false, false] }

/-- A pipeline with an empty registry. -/
def st_unregistered : State := { st_cap2 with thread_context_htbl := some [] }

/-- The pipeline `st_unregistered` when the next two allocation attempts
fail. -/
def st_unregistered_reject : State := { st_unregistered with alloc := [false, false] }

/-- The pipeline as `shared_log_init` leaves it in a build with
`MESSAGE_CHART_GENERATOR`, when no allocation fails, `max_threadsP` is 1 (30
items pre-seeded), the calling thread is 7 and the closing `log_message` logs
nothing. -/
def st_init_msc : Except Fault State :=
  shared_log_init true (fun _ st => .ok st) 1 7 0 g_shared_log

/-- The flush timer `shared_log_task` arms, with the id the timer module gave
it: one shot, `LOG_FLUSH_PERIOD_SEC` s and `LOG_FLUSH_PERIOD_MICRO_SEC` us. -/
def flush_timer (timer_id : Nat) : timer_elm_t :=
  { timer_id := timer_id, interval_sec := LOG_FLUSH_PERIOD_SEC,
    interval_us := LOG_FLUSH_PERIOD_MICRO_SEC, type := .TIMER_ONE_SHOT }

/-- A pipeline whose queue of capacity 1 is full, with thread 7 registered. -/
def st_full : State :=
  { st_cap2 with log_message_queue := { elements := [item_a], number_elements := 1 } }

/-- The pipeline `st_full` when the next allocation attempt fails. -/
def st_full_reject : State := { st_full with alloc := [false] }

/-! ## Basic facts about the environment calls -/

theorem try_alloc_eq (s : State) :
    try_alloc s = (s.alloc.headD true, { s with alloc := s.alloc.tail }) := by
  cases s with
  | mk a b c d e f al n t =>
    cases al <;> simp [try_alloc]

theorem blength_btrunc_zero (b : bstring) : blength (btrunc b 0) = 0 := by
  cases b <;> simp [btrunc, blength]

theorem recycled_addr (x : shared_log_queue_item_t) : (recycled x).addr = x.addr := rfl

theorem recycled_app_id (x : shared_log_queue_item_t) : (recycled x).app_id = x.app_id := rfl

theorem blength_recycled (x : shared_log_queue_item_t) : blength (recycled x).bstr = 0 :=
  blength_btrunc_zero x.bstr

theorem create_eq (s : State) (c : Int) :
    create_new_log_queue_item s c =
      if s.alloc.headD true = true then
        if ¬ (c ≥ MIN_SH_TS_LOG_CLIENT) then .error .app_id_below_min
        else if ¬ (c < MAX_SH_TS_LOG_CLIENT) then .error .app_id_above_max
        else if s.alloc.tail.headD true = true then
          .ok ({ addr := s.next_addr, app_id := c, bstr := some [] },
               { s with alloc := s.alloc.tail.tail, next_addr := s.next_addr + 1 })
        else .error .alloc_buf
      else .error .alloc_container := by
  simp only [create_new_log_queue_item, try_alloc_eq]
  cases h1 : s.alloc.headD true
  · rfl
  · simp only [if_true]
    split
    · rfl
    · split
      · rfl
      · cases h2 : s.alloc.tail.headD true <;> rfl

theorem push_eq (s : State) (x : shared_log_queue_item_t) :
    lfds611_stack_guaranteed_push s x =
      if s.alloc.headD true = true then
        (true, { s with alloc := s.alloc.tail,
                        log_free_message_queue := x :: s.log_free_message_queue })
      else (false, { s with alloc := s.alloc.tail }) := by
  unfold lfds611_stack_guaranteed_push
  rw [try_alloc_eq]
  cases h : s.alloc.headD true <;> simp

theorem reuse_eq (s : State) (x : shared_log_queue_item_t) :
    shared_log_reuse_item s x =
      if s.alloc.headD true = true then
        { s with alloc := s.alloc.tail,
                 log_free_message_queue := recycled x :: s.log_free_message_queue }
      else
        { s with alloc := s.alloc.tail,
                 trace := s.trace ++ [Event.err_reuse_item, Event.free_item (recycled x)] } := by
  unfold shared_log_reuse_item
  simp only [push_eq]
  cases h : s.alloc.headD true <;> simp [emit, recycled]

theorem sink_calls_append (a b : List Event) :
    sink_calls (a ++ b) = sink_calls a ++ sink_calls b := by
  simp [sink_calls, List.filterMap_append]

theorem freed_addrs_append (a b : List Event) :
    freed_addrs (a ++ b) = freed_addrs a ++ freed_addrs b := by
  simp [freed_addrs, List.filterMap_append]

theorem logger_callback_at_congr {s t : State} (h : s.logger_callback = t.logger_callback)
    (id : Int) : logger_callback_at s id = logger_callback_at t id := by
  simp [logger_callback_at, h]

theorem reuse_logger_callback (s : State) (x : shared_log_queue_item_t) :
    (shared_log_reuse_item s x).logger_callback = s.logger_callback := by
  rw [reuse_eq]; split <;> rfl

theorem reuse_queue (s : State) (x : shared_log_queue_item_t) :
    (shared_log_reuse_item s x).log_message_queue = s.log_message_queue := by
  rw [reuse_eq]; split <;> rfl

theorem reuse_htbl (s : State) (x : shared_log_queue_item_t) :
    (shared_log_reuse_item s x).thread_context_htbl = s.thread_context_htbl := by
  rw [reuse_eq]; split <;> rfl

theorem reuse_sink_calls (s : State) (x : shared_log_queue_item_t) :
    sink_calls (shared_log_reuse_item s x).trace = sink_calls s.trace := by
  rw [reuse_eq]; split
  · rfl
  · simp [sink_calls_append, sink_calls]


/-! ## Registration -/

theorem start_use_registered (s : State) (p : Nat) (nodes : List (Nat × log_thread_ctxt_t))
    (h : s.thread_context_htbl = some nodes) (hp : p ∈ nodes.map Prod.fst) :
    shared_log_start_use s p = s := by
  simp only [shared_log_start_use, hashtable_ts_is_key_exists, h]
  rw [if_pos hp]

theorem start_use_no_table (s : State) (p : Nat) (h : s.thread_context_htbl = none) :
    shared_log_start_use s p = s := by
  simp [shared_log_start_use, hashtable_ts_is_key_exists, h]

theorem start_use_fresh (s : State) (p : Nat) (nodes : List (Nat × log_thread_ctxt_t))
    (h : s.thread_context_htbl = some nodes) (hp : p ∉ nodes.map Prod.fst) :
    shared_log_start_use s p =
      if s.alloc.headD true = true then
        if s.alloc.tail.headD true = true then
          { s with alloc := s.alloc.tail.tail,
                   trace := s.trace ++ [Event.queue_use p, Event.stack_use p],
                   thread_context_htbl := some (nodes ++ [(p, { tid := p })]) }
        else
          { s with alloc := s.alloc.tail.tail,
                   trace := s.trace ++ [Event.queue_use p, Event.stack_use p] ++
                     [Event.err_register_ctxt, Event.free_ctxt p] }
      else
        { s with alloc := s.alloc.tail,
                 trace := s.trace ++ [Event.queue_use p, Event.stack_use p] ++
                   [Event.err_create_ctxt] } := by
  simp only [shared_log_start_use, hashtable_ts_is_key_exists, h]
  rw [if_neg hp]
  simp only [try_alloc_eq, emit]
  cases h1 : s.alloc.headD true
  · simp [h]
  · simp only [hashtable_ts_insert, h, if_neg hp, try_alloc_eq]
    cases h2 : s.alloc.tail.headD true <;> simp [emit, h]

/-- What `shared_log_start_use` leaves alone: it only consumes allocation
outcomes, appends effects that are neither sink calls nor frees of items, and
may add the thread to the registry. -/
theorem start_use_frame (s : State) (p : Nat) :
    ∃ al tr h, shared_log_start_use s p =
        { s with alloc := al, trace := s.trace ++ tr, thread_context_htbl := h } ∧
      sink_calls tr = [] ∧ freed_addrs tr = [] ∧ (∀ b ∈ al, b ∈ s.alloc) := by
  cases h : s.thread_context_htbl with
  | none =>
    refine ⟨s.alloc, [], none, ?_, rfl, rfl, fun b hb => hb⟩
    rw [start_use_no_table s p h]
    cases s; simp_all
  | some nodes =>
    by_cases hp : p ∈ nodes.map Prod.fst
    · refine ⟨s.alloc, [], some nodes, ?_, rfl, rfl, fun b hb => hb⟩
      rw [start_use_registered s p nodes h hp]
      cases s; simp_all
    · rw [start_use_fresh s p nodes h hp]
      have ht : ∀ b ∈ s.alloc.tail, b ∈ s.alloc := fun b hb => List.mem_of_mem_tail hb
      have htt : ∀ b ∈ s.alloc.tail.tail, b ∈ s.alloc :=
        fun b hb => ht b (List.mem_of_mem_tail hb)
      by_cases h1 : s.alloc.headD true = true
      · by_cases h2 : s.alloc.tail.headD true = true
        · refine ⟨s.alloc.tail.tail, [Event.queue_use p, Event.stack_use p],
            some (nodes ++ [(p, { tid := p })]), ?_, rfl, rfl, htt⟩
          rw [if_pos h1, if_pos h2]
        · refine ⟨s.alloc.tail.tail, [Event.queue_use p, Event.stack_use p] ++
            [Event.err_register_ctxt, Event.free_ctxt p], some nodes, ?_, rfl, rfl, htt⟩
          rw [if_pos h1, if_neg h2, ← h, List.append_assoc]
      · refine ⟨s.alloc.tail, [Event.queue_use p, Event.stack_use p] ++
            [Event.err_create_ctxt], some nodes, ?_, rfl, rfl, ht⟩
        rw [if_neg h1, ← h, List.append_assoc]

theorem start_use_queue (s : State) (p : Nat) :
    (shared_log_start_use s p).log_message_queue = s.log_message_queue := by
  obtain ⟨al, tr, h, e, _⟩ := start_use_frame s p
  rw [e]

theorem start_use_pool (s : State) (p : Nat) :
    (shared_log_start_use s p).log_free_message_queue = s.log_free_message_queue := by
  obtain ⟨al, tr, h, e, _⟩ := start_use_frame s p
  rw [e]

theorem start_use_logger_callback (s : State) (p : Nat) :
    (shared_log_start_use s p).logger_callback = s.logger_callback := by
  obtain ⟨al, tr, h, e, _⟩ := start_use_frame s p
  rw [e]

theorem start_use_sink_calls (s : State) (p : Nat) :
    sink_calls (shared_log_start_use s p).trace = sink_calls s.trace := by
  obtain ⟨al, tr, h, e, hs, _⟩ := start_use_frame s p
  rw [e]; simp [sink_calls_append, hs]

theorem start_use_alloc (s : State) (p : Nat) :
    ∀ b ∈ (shared_log_start_use s p).alloc, b ∈ s.alloc := by
  obtain ⟨al, tr, h, e, _, _, ha⟩ := start_use_frame s p
  rw [e]; exact ha


/-! ## Submit -/

theorem item_enqueued (s : State) (p : Nat) (m : shared_log_queue_item_t)
    (h : s.log_message_queue.elements.length < s.log_message_queue.number_elements) :
    shared_log_item s p (some m) =
      { shared_log_start_use s p with
        log_message_queue :=
          { s.log_message_queue with elements := s.log_message_queue.elements ++ [m] } } := by
  have hq := start_use_queue s p
  simp only [shared_log_item, lfds611_queue_enqueue]
  generalize shared_log_start_use s p = s1 at hq ⊢
  have h1 : s1.log_message_queue.elements.length < s1.log_message_queue.number_elements := by
    rw [hq]; exact h
  rw [if_pos h1, hq]

theorem item_dropped (s : State) (p : Nat) (m : shared_log_queue_item_t)
    (h : ¬ s.log_message_queue.elements.length < s.log_message_queue.number_elements) :
    shared_log_item s p (some m) =
      if (shared_log_start_use s p).alloc.headD true = true then
        { shared_log_start_use s p with
          alloc := (shared_log_start_use s p).alloc.tail,
          log_free_message_queue := recycled m :: s.log_free_message_queue }
      else
        emit { shared_log_start_use s p with alloc := (shared_log_start_use s p).alloc.tail }
          (match m.bstr with
           | some _ => [Event.bdestroy m.addr, Event.free_item { recycled m with bstr := none }]
           | none => [Event.free_item (recycled m)]) := by
  have hq := start_use_queue s p
  have hpool := start_use_pool s p
  simp only [shared_log_item, lfds611_queue_enqueue]
  generalize shared_log_start_use s p = s1 at hq hpool ⊢
  have h1 : ¬ s1.log_message_queue.elements.length < s1.log_message_queue.number_elements := by
    rw [hq]; exact h
  rw [if_neg h1]
  simp only [push_eq]
  cases h2 : s1.alloc.headD true
  · cases hb : m.bstr <;> simp [btrunc, recycled, hb]
  · simp [recycled, hpool]

theorem item_queue (s : State) (p : Nat) (m : shared_log_queue_item_t) :
    (shared_log_item s p (some m)).log_message_queue =
      if s.log_message_queue.elements.length < s.log_message_queue.number_elements then
        { s.log_message_queue with elements := s.log_message_queue.elements ++ [m] }
      else s.log_message_queue := by
  by_cases h : s.log_message_queue.elements.length < s.log_message_queue.number_elements
  · rw [item_enqueued s p m h, if_pos h]
  · rw [item_dropped s p m h, if_neg h]
    split
    · exact start_use_queue s p
    · simp only [emit]; exact start_use_queue s p

theorem item_logger_callback (s : State) (p : Nat) (m : Option shared_log_queue_item_t) :
    (shared_log_item s p m).logger_callback = s.logger_callback := by
  cases m with
  | none => rfl
  | some m =>
    by_cases h : s.log_message_queue.elements.length < s.log_message_queue.number_elements
    · rw [item_enqueued s p m h]; exact start_use_logger_callback s p
    · rw [item_dropped s p m h]
      split
      · exact start_use_logger_callback s p
      · simp only [emit]; exact start_use_logger_callback s p

theorem item_sink_calls (s : State) (p : Nat) (m : Option shared_log_queue_item_t) :
    sink_calls (shared_log_item s p m).trace = sink_calls s.trace := by
  cases m with
  | none => rfl
  | some m =>
    by_cases h : s.log_message_queue.elements.length < s.log_message_queue.number_elements
    · rw [item_enqueued s p m h]; exact start_use_sink_calls s p
    · rw [item_dropped s p m h]
      split
      · exact start_use_sink_calls s p
      · simp only [emit, sink_calls_append, start_use_sink_calls]
        cases m.bstr <;> simp [sink_calls]

theorem item_alloc_never_fails (s : State) (p : Nat) (m : shared_log_queue_item_t)
    (ha : alloc_never_fails s) : alloc_never_fails (shared_log_item s p (some m)) := by
  have h1 : alloc_never_fails (shared_log_start_use s p) :=
    fun b hb => ha b (start_use_alloc s p b hb)
  by_cases h : s.log_message_queue.elements.length < s.log_message_queue.number_elements
  · rw [item_enqueued s p m h]; exact h1
  · rw [item_dropped s p m h]
    split
    · exact fun b hb => h1 b (List.mem_of_mem_tail hb)
    · simp only [emit]; exact fun b hb => h1 b (List.mem_of_mem_tail hb)

theorem headD_of_never_fails (s : State) (ha : alloc_never_fails s) :
    s.alloc.headD true = true := by
  unfold alloc_never_fails at ha
  cases h : s.alloc with
  | nil => rfl
  | cons b rest => rw [h] at ha; simpa using ha b (List.mem_cons_self _ _)

theorem item_pool (s : State) (p : Nat) (m : shared_log_queue_item_t)
    (ha : alloc_never_fails s) :
    (shared_log_item s p (some m)).log_free_message_queue =
      if s.log_message_queue.elements.length < s.log_message_queue.number_elements then
        s.log_free_message_queue
      else recycled m :: s.log_free_message_queue := by
  have h1 : alloc_never_fails (shared_log_start_use s p) :=
    fun b hb => ha b (start_use_alloc s p b hb)
  by_cases h : s.log_message_queue.elements.length < s.log_message_queue.number_elements
  · rw [item_enqueued s p m h, if_pos h]; exact start_use_pool s p
  · rw [item_dropped s p m h, if_neg h, if_pos (headD_of_never_fails _ h1)]

theorem submit_all_cons (s : State) (x : Nat × shared_log_queue_item_t)
    (xs : List (Nat × shared_log_queue_item_t)) :
    submit_all s (x :: xs) = submit_all (shared_log_item s x.1 (some x.2)) xs := rfl

theorem submit_all_logger_callback (xs : List (Nat × shared_log_queue_item_t)) :
    ∀ s : State, (submit_all s xs).logger_callback = s.logger_callback := by
  induction xs with
  | nil => intro s; rfl
  | cons x xs ih => intro s; rw [submit_all_cons, ih, item_logger_callback]

theorem submit_all_sink_calls (xs : List (Nat × shared_log_queue_item_t)) :
    ∀ s : State, sink_calls (submit_all s xs).trace = sink_calls s.trace := by
  induction xs with
  | nil => intro s; rfl
  | cons x xs ih => intro s; rw [submit_all_cons, ih, item_sink_calls]

/-- The queue after a run of submits: the items already queued, then as many of
the submitted items, in submission order, as the free places allow; the
capacity does not change. -/
theorem submit_all_queue (xs : List (Nat × shared_log_queue_item_t)) :
    ∀ s : State, (submit_all s xs).log_message_queue =
      { s.log_message_queue with
        elements := s.log_message_queue.elements ++
          (xs.map Prod.snd).take
            (s.log_message_queue.number_elements - s.log_message_queue.elements.length) } := by
  induction xs with
  | nil => intro s; simp [submit_all]
  | cons x xs ih =>
    intro s
    rw [submit_all_cons, ih, item_queue]
    by_cases h : s.log_message_queue.elements.length < s.log_message_queue.number_elements
    · rw [if_pos h]
      obtain ⟨k, hk⟩ : ∃ k, s.log_message_queue.number_elements -
          s.log_message_queue.elements.length = k + 1 := ⟨_, (Nat.succ_pred_eq_of_pos
            (Nat.sub_pos_of_lt h)).symm⟩
      have hk2 : s.log_message_queue.number_elements -
          (s.log_message_queue.elements.length + 1) = k := by omega
      simp [hk, hk2]
    · rw [if_neg h]
      have hk : s.log_message_queue.number_elements -
          s.log_message_queue.elements.length = 0 := by omega
      simp [hk]

/-- The pool after a run of submits none of whose allocations fails: every
submitted item that found the queue full lies on the pool, truncated, the last
dropped on top. -/
theorem submit_all_pool (xs : List (Nat × shared_log_queue_item_t)) :
    ∀ s : State, alloc_never_fails s →
      (submit_all s xs).log_free_message_queue =
        (((xs.map Prod.snd).drop
            (s.log_message_queue.number_elements - s.log_message_queue.elements.length)).map
          recycled).reverse ++ s.log_free_message_queue := by
  induction xs with
  | nil => intro s _; simp [submit_all]
  | cons x xs ih =>
    intro s ha
    rw [submit_all_cons, ih _ (item_alloc_never_fails s x.1 x.2 ha), item_queue,
      item_pool s x.1 x.2 ha]
    by_cases h : s.log_message_queue.elements.length < s.log_message_queue.number_elements
    · rw [if_pos h, if_pos h]
      obtain ⟨k, hk⟩ : ∃ k, s.log_message_queue.number_elements -
          s.log_message_queue.elements.length = k + 1 := ⟨_, (Nat.succ_pred_eq_of_pos
            (Nat.sub_pos_of_lt h)).symm⟩
      have hk2 : s.log_message_queue.number_elements -
          (s.log_message_queue.elements.length + 1) = k := by omega
      simp [hk, hk2]
    · rw [if_neg h, if_neg h]
      have hk : s.log_message_queue.number_elements -
          s.log_message_queue.elements.length = 0 := by omega
      simp [hk]


/-! ## Drain -/

theorem flush_items_cons_sink (s : State) (x : shared_log_queue_item_t)
    (rest : List shared_log_queue_item_t) (fn : logger_fn)
    (hr : x.app_id ≥ MIN_SH_TS_LOG_CLIENT ∧ x.app_id < MAX_SH_TS_LOG_CLIENT)
    (hfn : logger_callback_at s x.app_id = some fn) :
    flush_items (x :: rest) s =
      flush_items rest (shared_log_reuse_item
        (emit { s with log_message_queue := { s.log_message_queue with elements := rest } }
          [Event.call fn x]) x) := by
  have hfn2 : logger_callback_at
      { s with log_message_queue := { s.log_message_queue with elements := rest } } x.app_id =
      some fn := hfn
  simp only [flush_items]
  rw [if_pos hr]
  simp only [hfn2]

theorem flush_items_cons_null (s : State) (x : shared_log_queue_item_t)
    (rest : List shared_log_queue_item_t)
    (hr : x.app_id ≥ MIN_SH_TS_LOG_CLIENT ∧ x.app_id < MAX_SH_TS_LOG_CLIENT)
    (hfn : logger_callback_at s x.app_id = none) :
    flush_items (x :: rest) s = .error .null_callback := by
  have hfn2 : logger_callback_at
      { s with log_message_queue := { s.log_message_queue with elements := rest } } x.app_id =
      none := hfn
  simp only [flush_items]
  rw [if_pos hr]
  simp only [hfn2]

theorem flush_items_cons_bad (s : State) (x : shared_log_queue_item_t)
    (rest : List shared_log_queue_item_t)
    (hr : ¬ (x.app_id ≥ MIN_SH_TS_LOG_CLIENT ∧ x.app_id < MAX_SH_TS_LOG_CLIENT)) :
    flush_items (x :: rest) s =
      flush_items rest (shared_log_reuse_item
        (emit { s with log_message_queue := { s.log_message_queue with elements := rest } }
          [Event.err_bad_logger x.app_id]) x) := by
  simp only [flush_items]
  rw [if_neg hr]

/-- The loop of the drain follows `lfds611_queue_dequeue`: it ends when the
dequeue returns 0 and otherwise goes on with the item and the queue the
dequeue returns. -/
theorem flush_items_follows_dequeue (s : State) :
    (lfds611_queue_dequeue s.log_message_queue = none →
      shared_log_flush_messages s = .ok s) ∧
    (∀ x q, lfds611_queue_dequeue s.log_message_queue = some (x, q) →
      shared_log_flush_messages s =
        flush_items (x :: q.elements) { s with log_message_queue := q } ∧
      q = { s.log_message_queue with elements := q.elements }) := by
  unfold lfds611_queue_dequeue shared_log_flush_messages
  cases h : s.log_message_queue.elements with
  | nil =>
    constructor
    · intro _; rfl
    · intro x q hq; cases hq
  | cons y rest =>
    constructor
    · intro hq; cases hq
    · intro x q hq
      simp only [Option.some.injEq, Prod.mk.injEq] at hq
      obtain ⟨rfl, rfl⟩ := hq
      exact ⟨rfl, rfl⟩

theorem deliveries_congr {s t : State} (h : s.logger_callback = t.logger_callback)
    (q : List shared_log_queue_item_t) : deliveries s q = deliveries t q := by
  simp only [deliveries, logger_callback_at, h]

theorem has_sink_congr {s t : State} (h : s.logger_callback = t.logger_callback)
    (x : shared_log_queue_item_t) : has_sink s x ↔ has_sink t x := by
  simp only [has_sink, logger_callback_at, h]

theorem deliveries_cons_sink (s : State) (x : shared_log_queue_item_t)
    (rest : List shared_log_queue_item_t) (fn : logger_fn)
    (hr : x.app_id ≥ MIN_SH_TS_LOG_CLIENT ∧ x.app_id < MAX_SH_TS_LOG_CLIENT)
    (hfn : logger_callback_at s x.app_id = some fn) :
    deliveries s (x :: rest) = (fn, x) :: deliveries s rest := by
  simp only [deliveries, List.filterMap_cons]
  rw [if_pos hr, hfn]
  rfl

/-- The deliveries of a queue whose items all have a sink: one per item, in
queue order. -/
theorem deliveries_map_snd (s : State) (q : List shared_log_queue_item_t)
    (h : ∀ x ∈ q, has_sink s x) : (deliveries s q).map Prod.snd = q := by
  induction q with
  | nil => rfl
  | cons x rest ih =>
    obtain ⟨h1, h2, h3⟩ := h x (List.mem_cons_self _ _)
    obtain ⟨fn, hfn⟩ := Option.isSome_iff_exists.mp h3
    rw [deliveries_cons_sink s x rest fn ⟨h1, h2⟩ hfn, List.map_cons,
      ih (fun y hy => h y (List.mem_cons_of_mem _ hy))]

/-- A drain of items that all have a sink returns, has called the sink of each
item once, in queue order, and leaves sink table, registry and capacity as they
were. -/
theorem flush_items_ok (q : List shared_log_queue_item_t) :
    ∀ s : State, (∀ x ∈ q, has_sink s x) →
      ∃ s2, flush_items q s = .ok s2 ∧
        sink_calls s2.trace = sink_calls s.trace ++ deliveries s q ∧
        s2.logger_callback = s.logger_callback ∧
        s2.thread_context_htbl = s.thread_context_htbl ∧
        s2.log_message_queue.number_elements = s.log_message_queue.number_elements ∧
        (q ≠ [] → s2.log_message_queue.elements = []) := by
  induction q with
  | nil =>
    intro s _
    exact ⟨s, rfl, by simp [deliveries], rfl, rfl, rfl, fun h => absurd rfl h⟩
  | cons x rest ih =>
    intro s h
    obtain ⟨h1, h2, h3⟩ := h x (List.mem_cons_self _ _)
    obtain ⟨fn, hfn⟩ := Option.isSome_iff_exists.mp h3
    rw [flush_items_cons_sink s x rest fn ⟨h1, h2⟩ hfn]
    have hcb : (shared_log_reuse_item
        (emit { s with log_message_queue := { s.log_message_queue with elements := rest } }
          [Event.call fn x]) x).logger_callback = s.logger_callback := by
      rw [reuse_logger_callback]; rfl
    obtain ⟨s2, e, hs, hc, hh, hn, hq⟩ := ih _ (fun y hy =>
      (has_sink_congr hcb y).mpr (h y (List.mem_cons_of_mem _ hy)))
    refine ⟨s2, e, ?_, hc.trans hcb, ?_, ?_, ?_⟩
    · rw [hs, reuse_sink_calls, deliveries_congr hcb, deliveries_cons_sink s x rest fn ⟨h1, h2⟩ hfn]
      simp [emit, sink_calls_append, sink_calls]
    · rw [hh, reuse_htbl]; rfl
    · rw [hn, reuse_queue]; rfl
    · intro _
      cases rest with
      | nil =>
        simp only [flush_items] at e
        cases e
        rw [reuse_queue]; rfl
      | cons y r => exact hq (List.cons_ne_nil _ _)

theorem flush_messages_ok (s : State)
    (h : ∀ x ∈ s.log_message_queue.elements, has_sink s x) :
    ∃ s2, shared_log_flush_messages s = .ok s2 ∧
      sink_calls s2.trace = sink_calls s.trace ++ deliveries s s.log_message_queue.elements ∧
      s2.logger_callback = s.logger_callback ∧
      s2.thread_context_htbl = s.thread_context_htbl ∧
      s2.log_message_queue.number_elements = s.log_message_queue.number_elements ∧
      s2.log_message_queue.elements = [] := by
  obtain ⟨s2, e, hs, hc, hh, hn, hq⟩ := flush_items_ok s.log_message_queue.elements s h
  refine ⟨s2, e, hs, hc, hh, hn, ?_⟩
  by_cases hnil : s.log_message_queue.elements = []
  · unfold shared_log_flush_messages at *
    rw [hnil] at e
    simp only [flush_items] at e
    cases e
    exact hnil
  · exact hq hnil


/-! ## C1: a drain delivers the submitted items in FIFO order -/

theorem deliveries_sink (s : State) (q : List shared_log_queue_item_t) :
    ∀ c ∈ deliveries s q, logger_callback_at s c.2.app_id = some c.1 := by
  intro c hc
  simp only [deliveries, List.mem_filterMap] at hc
  obtain ⟨x, _, hx⟩ := hc
  split at hx
  · cases hfn : logger_callback_at s x.app_id with
    | none => rw [hfn] at hx; cases hx
    | some fn =>
      rw [hfn] at hx
      cases hx
      exact hfn
  · cases hx

/-- C1 (amended): for every state with an empty queue and every sequence of
submitted items whose client ids are in range and have a sink in the sink
table, the queue after the submits holds the items whose enqueue succeeded (the
first `number_elements` of them, in submission order), and one following drain
returns, has invoked, after the earlier sink calls, exactly one sink call per
enqueued item, in submission order, each through the table entry of the item's
client id, no other sink call, and leaves the queue empty. -/
theorem C1_drain_delivers_enqueued_fifo (s : State)
    (xs : List (Nat × shared_log_queue_item_t))
    (hq : s.log_message_queue.elements = [])
    (hx : ∀ x ∈ xs, has_sink s x.2) :
    (submit_all s xs).log_message_queue.elements =
        (xs.map Prod.snd).take s.log_message_queue.number_elements ∧
    ∃ s2 calls, shared_log_flush_messages (submit_all s xs) = .ok s2 ∧
      sink_calls s2.trace = sink_calls s.trace ++ calls ∧
      calls.map Prod.snd = (xs.map Prod.snd).take s.log_message_queue.number_elements ∧
      (∀ c ∈ calls, logger_callback_at s c.2.app_id = some c.1) ∧
      s2.log_message_queue.elements = [] := by
  have hel : (submit_all s xs).log_message_queue.elements =
      (xs.map Prod.snd).take s.log_message_queue.number_elements := by
    rw [submit_all_queue]; simp [hq]
  have hcb := submit_all_logger_callback xs s
  have hsink : ∀ y ∈ (xs.map Prod.snd).take s.log_message_queue.number_elements,
      has_sink s y := by
    intro y hy
    obtain ⟨x, hxm, rfl⟩ := List.mem_map.mp (List.mem_of_mem_take hy)
    exact hx x hxm
  refine ⟨hel, ?_⟩
  obtain ⟨s2, e, hs, _, _, _, hempty⟩ := flush_messages_ok (submit_all s xs) (by
    rw [hel]; exact fun y hy => (has_sink_congr hcb y).mpr (hsink y hy))
  refine ⟨s2, deliveries s ((xs.map Prod.snd).take s.log_message_queue.number_elements),
    e, ?_, deliveries_map_snd s _ hsink, deliveries_sink s _, hempty⟩
  rw [hs, hel, submit_all_sink_calls, deliveries_congr hcb]

/-- C1 (witness): three text-log items submitted by thread 7 to a queue of
capacity 2. -/
theorem C1_drain_delivers_enqueued_fifo_witness :
    (submit_all st_cap2 [(7, item_a), (7, item_b), (7, item_c)]).log_message_queue.elements =
        [item_a, item_b] ∧
    ∃ s2 calls, shared_log_flush_messages
        (submit_all st_cap2 [(7, item_a), (7, item_b), (7, item_c)]) = .ok s2 ∧
      sink_calls s2.trace = sink_calls st_cap2.trace ++ calls ∧
      calls.map Prod.snd = [item_a, item_b] ∧
      (∀ c ∈ calls, logger_callback_at st_cap2 c.2.app_id = some c.1) ∧
      s2.log_message_queue.elements = [] :=
  C1_drain_delivers_enqueued_fifo st_cap2 [(7, item_a), (7, item_b), (7, item_c)] rfl
    (by decide)

/-- C1 (counterexample): in a build without `MESSAGE_CHART_GENERATOR`
`shared_log_init` leaves the table entry of `SH_TS_LOG_MSC` null.  The state it
returns has an empty queue; `get_new_log_queue_item(SH_TS_LOG_MSC)` returns an
item, whose client id is in range; thread 7 fills and submits it, and the
enqueue succeeds; the drain that follows calls through the null entry: no sink
is invoked and the drain does not return. -/
theorem C1_counterexample_unset_sink :
    ∃ s0 item s1, st_init_no_msc = .ok s0 ∧ s0.log_message_queue.elements = [] ∧
      get_new_log_queue_item s0 SH_TS_LOG_MSC = .ok (item, s1) ∧
      (item.app_id ≥ MIN_SH_TS_LOG_CLIENT ∧ item.app_id < MAX_SH_TS_LOG_CLIENT) ∧
      (shared_log_item s1 7 (some { item with bstr := some [104, 105] })).log_message_queue.elements
        = [{ item with bstr := some [104, 105] }] ∧
      shared_log_flush_messages (shared_log_item s1 7 (some { item with bstr := some [104, 105] }))
        = .error .null_callback := by
  refine ⟨_, _, _, rfl, rfl, rfl, by decide, rfl, rfl⟩

/-! ## C2: acquire -/

/-- C2 (amended): provided no allocation fails, `get_new_log_queue_item` returns
an item for every pool state and every client id in
`[MIN_SH_TS_LOG_CLIENT, MAX_SH_TS_LOG_CLIENT)`, and for every client id at all
when the pool is not empty; it does not end the process then. -/
theorem C2_acquire_succeeds (s : State) (app_id : Int) (ha : alloc_never_fails s)
    (hid : s.log_free_message_queue ≠ [] ∨
      (app_id ≥ MIN_SH_TS_LOG_CLIENT ∧ app_id < MAX_SH_TS_LOG_CLIENT)) :
    ∃ item s2, get_new_log_queue_item s app_id = .ok (item, s2) := by
  cases hp : s.log_free_message_queue with
  | cons x rest =>
    refine ⟨{ x with app_id := app_id, bstr := btrunc x.bstr 0 },
      { s with log_free_message_queue := rest }, ?_⟩
    simp only [get_new_log_queue_item, lfds611_stack_pop, hp]
  | nil =>
    have hr : app_id ≥ MIN_SH_TS_LOG_CLIENT ∧ app_id < MAX_SH_TS_LOG_CLIENT := by
      cases hid with
      | inl h => exact absurd hp h
      | inr h => exact h
    have h1 := headD_of_never_fails s ha
    have h2 : s.alloc.tail.headD true = true :=
      headD_of_never_fails { s with alloc := s.alloc.tail }
        (fun b hb => ha b (List.mem_of_mem_tail hb))
    refine ⟨{ addr := s.next_addr, app_id := app_id, bstr := some [] },
      { s with alloc := s.alloc.tail.tail, next_addr := s.next_addr + 1 }, ?_⟩
    simp only [get_new_log_queue_item, lfds611_stack_pop, hp, create_new_log_queue_item,
      try_alloc_eq, h1, h2]
    rw [if_neg (not_not.mpr hr.1), if_neg (not_not.mpr hr.2)]

/-- C2 (witness): client id 0 on the empty pool of `st_cap2`. -/
theorem C2_acquire_succeeds_witness :
    ∃ item s2, get_new_log_queue_item st_cap2 0 = .ok (item, s2) :=
  C2_acquire_succeeds st_cap2 0 (by decide) (Or.inr (by decide))

/-- C2 (counterexample): on an empty pool, with an allocator that does not
fail, `get_new_log_queue_item(99)` ends the process at
`AssertFatal((app_id < MAX_SH_TS_LOG_CLIENT), ...)` of
`create_new_log_queue_item`. -/
theorem C2_counterexample_bad_client_id :
    st_cap2.log_free_message_queue = [] ∧ alloc_never_fails st_cap2 ∧
      get_new_log_queue_item st_cap2 99 = .error .app_id_above_max := by
  refine ⟨rfl, by decide, rfl⟩

/-! ## C3: drop on overflow -/

/-- C3 (amended): for every capacity and every run of submits made on an empty
queue before any drain, the queue afterwards holds exactly the first
`min k c` submitted items in submission order; provided no allocation fails,
every later item lies on the pool with an empty buffer (the last dropped on
top of the earlier pool); and provided every kept item has a client id in range
with a sink in the table, the following drain returns, has delivered exactly
the kept items, in order, and leaves the queue empty. -/
theorem C3_drop_on_overflow (s : State) (xs : List (Nat × shared_log_queue_item_t))
    (hq : s.log_message_queue.elements = []) :
    (submit_all s xs).log_message_queue.elements =
        (xs.map Prod.snd).take s.log_message_queue.number_elements ∧
    (submit_all s xs).log_message_queue.elements.length =
        min xs.length s.log_message_queue.number_elements ∧
    (alloc_never_fails s →
      (submit_all s xs).log_free_message_queue =
          (((xs.map Prod.snd).drop s.log_message_queue.number_elements).map recycled).reverse ++
            s.log_free_message_queue ∧
        ∀ y ∈ ((xs.map Prod.snd).drop s.log_message_queue.number_elements).map recycled,
          blength y.bstr = 0) ∧
    ((∀ y ∈ (xs.map Prod.snd).take s.log_message_queue.number_elements, has_sink s y) →
      ∃ s2 calls, shared_log_flush_messages (submit_all s xs) = .ok s2 ∧
        sink_calls s2.trace = sink_calls s.trace ++ calls ∧
        calls.map Prod.snd = (xs.map Prod.snd).take s.log_message_queue.number_elements ∧
        s2.log_message_queue.elements = []) := by
  have hel : (submit_all s xs).log_message_queue.elements =
      (xs.map Prod.snd).take s.log_message_queue.number_elements := by
    rw [submit_all_queue]; simp [hq]
  have hcb := submit_all_logger_callback xs s
  refine ⟨hel, ?_, ?_, ?_⟩
  · rw [hel]; simp [Nat.min_comm]
  · intro ha
    constructor
    · rw [submit_all_pool xs s ha]; simp [hq]
    · intro y hy
      obtain ⟨x, _, rfl⟩ := List.mem_map.mp hy
      exact blength_recycled x
  · intro hsink
    obtain ⟨s2, e, hs, _, _, _, hempty⟩ := flush_messages_ok (submit_all s xs) (by
      rw [hel]; exact fun y hy => (has_sink_congr hcb y).mpr (hsink y hy))
    refine ⟨s2, deliveries s ((xs.map Prod.snd).take s.log_message_queue.number_elements),
      e, ?_, deliveries_map_snd s _ hsink, hempty⟩
    rw [hs, hel, submit_all_sink_calls, deliveries_congr hcb]

/-- C3 (witness): capacity 2 and the three submits of `item_a`, `item_b`,
`item_c`: the third is dropped and lies on the pool with an empty buffer, the
first two are delivered in order. -/
theorem C3_drop_on_overflow_witness :
    (submit_all st_cap2 [(7, item_a), (7, item_b), (7, item_c)]).log_message_queue.elements =
        [item_a, item_b] ∧
    (submit_all st_cap2 [(7, item_a), (7, item_b), (7, item_c)]).log_free_message_queue =
        [{ item_c with bstr := some [] }] ∧
    ∃ s2 calls, shared_log_flush_messages
        (submit_all st_cap2 [(7, item_a), (7, item_b), (7, item_c)]) = .ok s2 ∧
      sink_calls s2.trace = sink_calls st_cap2.trace ++ calls ∧
      calls.map Prod.snd = [item_a, item_b] ∧
      s2.log_message_queue.elements = [] :=
  ⟨(C3_drop_on_overflow st_cap2 [(7, item_a), (7, item_b), (7, item_c)] rfl).1,
    ((C3_drop_on_overflow st_cap2 [(7, item_a), (7, item_b), (7, item_c)] rfl).2.2.1
      (by decide)).1,
    (C3_drop_on_overflow st_cap2 [(7, item_a), (7, item_b), (7, item_c)] rfl).2.2.2
      (by decide)⟩

/-- C3 (counterexample): capacity 2, an empty queue, the next allocation fails,
and thread 7 submits `item_99`, `item_b`, `item_c`.  The third item is not back
in the pool: the pool rejected the push and `shared_log_item` destroyed buffer
and container.  The following drain does not deliver the first two items: the
first has the client id 99 and only gets the bad-identifier report. -/
theorem C3_counterexample_destroyed_and_undelivered :
    st_reject.log_message_queue.elements = [] ∧
    st_reject.log_message_queue.number_elements = 2 ∧
    (submit_all st_reject [(7, item_99), (7, item_b), (7, item_c)]).log_message_queue.elements =
        [item_99, item_b] ∧
    (submit_all st_reject [(7, item_99), (7, item_b), (7, item_c)]).log_free_message_queue =
        [] ∧
    (submit_all st_reject [(7, item_99), (7, item_b), (7, item_c)]).trace =
        [Event.bdestroy 3, Event.free_item { item_c with bstr := none }] ∧
    ∃ s2, shared_log_flush_messages
        (submit_all st_reject [(7, item_99), (7, item_b), (7, item_c)]) = .ok s2 ∧
      sink_calls s2.trace = [(logger_fn.log_flush_message, item_b)] := by
  refine ⟨rfl, rfl, rfl, rfl, rfl, _, rfl, rfl⟩


/-! ## C4: an item with a bad client id -/

theorem flush_items_cons (s : State) (x : shared_log_queue_item_t)
    (rest : List shared_log_queue_item_t) :
    flush_items (x :: rest) s =
      match step_event s x with
      | none => .error .null_callback
      | some e => flush_items rest (shared_log_reuse_item (emit (with_queue s rest) [e]) x) := by
  by_cases hr : x.app_id ≥ MIN_SH_TS_LOG_CLIENT ∧ x.app_id < MAX_SH_TS_LOG_CLIENT
  · cases hfn : logger_callback_at s x.app_id with
    | none =>
      rw [flush_items_cons_null s x rest hr hfn]
      simp only [step_event, if_pos hr, hfn, Option.map_none']
    | some fn =>
      rw [flush_items_cons_sink s x rest fn hr hfn]
      simp only [step_event, if_pos hr, hfn, Option.map_some']
      rfl
  · rw [flush_items_cons_bad s x rest hr]
    simp only [step_event, if_neg hr]
    rfl

theorem step_event_congr {s t : State} (h : s.logger_callback = t.logger_callback)
    (x : shared_log_queue_item_t) : step_event s x = step_event t x := by
  simp only [step_event, logger_callback_at, h]

theorem step_event_bad (s : State) (x : shared_log_queue_item_t)
    (hx : ¬ (x.app_id ≥ MIN_SH_TS_LOG_CLIENT ∧ x.app_id < MAX_SH_TS_LOG_CLIENT)) :
    step_event s x = some (Event.err_bad_logger x.app_id) := by
  simp only [step_event, if_neg hx]

theorem reuse_with_queue (s : State) (q : List shared_log_queue_item_t) (es : List Event)
    (x : shared_log_queue_item_t) :
    shared_log_reuse_item (emit (with_queue s q) es) x =
      with_queue (shared_log_reuse_item (emit s es) x) q := by
  rw [reuse_eq, reuse_eq]
  by_cases h : s.alloc.headD true = true
  · have h1 : (emit (with_queue s q) es).alloc.headD true = true := h
    have h2 : (emit s es).alloc.headD true = true := h
    rw [if_pos h1, if_pos h2]; rfl
  · have h1 : ¬ (emit (with_queue s q) es).alloc.headD true = true := h
    have h2 : ¬ (emit s es).alloc.headD true = true := h
    rw [if_neg h1, if_neg h2]; rfl

theorem flush_items_with_queue (q e : List shared_log_queue_item_t) (s : State)
    (hq : q ≠ []) : flush_items q (with_queue s e) = flush_items q s := by
  cases q with
  | nil => exact absurd rfl hq
  | cons x rest => rfl

/-- The drain of a queue `pre ++ rest` is the drain of `pre` followed by the
drain of `rest`. -/
theorem flush_items_append (pre rest : List shared_log_queue_item_t) (hr : rest ≠ []) :
    ∀ s : State, flush_items (pre ++ rest) s = (flush_items pre s).bind (flush_items rest) := by
  induction pre with
  | nil => intro s; rfl
  | cons y pre ih =>
    intro s
    rw [List.cons_append, flush_items_cons, flush_items_cons]
    cases step_event s y with
    | none => rfl
    | some e =>
      simp only
      rw [reuse_with_queue, flush_items_with_queue _ _ _ (by simp [hr]), reuse_with_queue s pre,
        ← ih]
      exact (flush_items_with_queue _ _ _ (by simp [hr])).symm

theorem drain_sink_calls_congr (q : List shared_log_queue_item_t) :
    ∀ s t : State, s.logger_callback = t.logger_callback →
      sink_calls s.trace = sink_calls t.trace →
      drain_sink_calls (flush_items q s) = drain_sink_calls (flush_items q t) := by
  induction q with
  | nil =>
    intro s t _ h
    simp only [flush_items, drain_sink_calls, h]
  | cons x rest ih =>
    intro s t hcb htr
    rw [flush_items_cons, flush_items_cons, step_event_congr hcb x]
    cases step_event t x with
    | none => rfl
    | some e =>
      simp only
      apply ih
      · rw [reuse_logger_callback, reuse_logger_callback]; exact hcb
      · rw [reuse_sink_calls, reuse_sink_calls]
        simp only [emit, with_queue, sink_calls_append, htr]

theorem drain_sink_calls_skip (pre post : List shared_log_queue_item_t)
    (x : shared_log_queue_item_t)
    (hx : ¬ (x.app_id ≥ MIN_SH_TS_LOG_CLIENT ∧ x.app_id < MAX_SH_TS_LOG_CLIENT)) :
    ∀ s t : State, s.logger_callback = t.logger_callback →
      sink_calls s.trace = sink_calls t.trace →
      drain_sink_calls (flush_items (pre ++ x :: post) s) =
        drain_sink_calls (flush_items (pre ++ post) t) := by
  induction pre with
  | nil =>
    intro s t hcb htr
    rw [List.nil_append, List.nil_append, flush_items_cons, step_event_bad s x hx]
    simp only
    apply drain_sink_calls_congr
    · rw [reuse_logger_callback]; exact hcb
    · rw [reuse_sink_calls]
      simp only [emit, with_queue, sink_calls_append, htr]
      simp [sink_calls]
  | cons y pre ih =>
    intro s t hcb htr
    rw [List.cons_append, List.cons_append, flush_items_cons, flush_items_cons,
      step_event_congr hcb y]
    cases step_event t y with
    | none => rfl
    | some e =>
      simp only
      apply ih
      · rw [reuse_logger_callback, reuse_logger_callback]; exact hcb
      · rw [reuse_sink_calls, reuse_sink_calls]
        simp only [emit, with_queue, sink_calls_append, htr]

/-- A drain only appends to the trace and only pushes on the pool. -/
theorem flush_items_grows (q : List shared_log_queue_item_t) :
    ∀ s s2 : State, flush_items q s = .ok s2 →
      (∀ e ∈ s.trace, e ∈ s2.trace) ∧
      (∀ y ∈ s.log_free_message_queue, y ∈ s2.log_free_message_queue) := by
  induction q with
  | nil =>
    intro s s2 h
    simp only [flush_items, Except.ok.injEq] at h
    subst h
    exact ⟨fun _ h => h, fun _ h => h⟩
  | cons x rest ih =>
    intro s s2 h
    rw [flush_items_cons] at h
    cases hse : step_event s x with
    | none => rw [hse] at h; cases h
    | some e =>
      rw [hse] at h
      simp only at h
      obtain ⟨h1, h2⟩ := ih _ _ h
      rw [reuse_eq] at h1 h2
      constructor
      · intro e0 he0
        apply h1
        split <;> simp [emit, with_queue, he0]
      · intro y hy
        apply h2
        split <;> simp [emit, with_queue, hy]

/-- What release does with an item: it ends on the pool, truncated, or its
container is freed. -/
theorem reuse_outcome (s : State) (x : shared_log_queue_item_t) :
    recycled x ∈ (shared_log_reuse_item s x).log_free_message_queue ∨
      Event.free_item (recycled x) ∈ (shared_log_reuse_item s x).trace := by
  rw [reuse_eq]
  split
  · exact Or.inl (List.mem_cons_self _ _)
  · exact Or.inr (by simp)

theorem reuse_trace_grows (s : State) (x : shared_log_queue_item_t) :
    ∀ e ∈ s.trace, e ∈ (shared_log_reuse_item s x).trace := by
  intro e he
  rw [reuse_eq]
  split
  · exact he
  · simp [he]

/-- C4: in a drain of any queue `pre ++ x :: post` whose item `x` has a client
id outside `[MIN_SH_TS_LOG_CLIENT, MAX_SH_TS_LOG_CLIENT)`, the drain,
once it has processed `pre`, reports the bad identifier for `x`, invokes no
sink for it, hands it to `shared_log_reuse_item` and goes on with `post`;
release puts the item on the pool, truncated, when the pool accepts the push
and frees its container when the pool rejects it; the sink calls of the whole
drain (or the fault that ends it) are those of the drain of `pre ++ post`; and
when the drain returns, the report is in the trace and the item is on the pool
or freed. -/
theorem C4_bad_client_id_skipped (s : State) (pre post : List shared_log_queue_item_t)
    (x : shared_log_queue_item_t)
    (hx : ¬ (x.app_id ≥ MIN_SH_TS_LOG_CLIENT ∧ x.app_id < MAX_SH_TS_LOG_CLIENT)) :
    shared_log_flush_messages (with_queue s (pre ++ x :: post)) =
      (flush_items pre s).bind (fun s1 =>
        flush_items post (shared_log_reuse_item
          (emit (with_queue s1 post) [Event.err_bad_logger x.app_id]) x)) ∧
    (∀ s1 : State,
      sink_calls (shared_log_reuse_item
          (emit (with_queue s1 post) [Event.err_bad_logger x.app_id]) x).trace =
        sink_calls s1.trace ∧
      (s1.alloc.headD true = true →
        (shared_log_reuse_item
          (emit (with_queue s1 post) [Event.err_bad_logger x.app_id]) x).log_free_message_queue =
          recycled x :: s1.log_free_message_queue) ∧
      (s1.alloc.headD true = false →
        (shared_log_reuse_item
          (emit (with_queue s1 post) [Event.err_bad_logger x.app_id]) x).log_free_message_queue =
          s1.log_free_message_queue ∧
        (shared_log_reuse_item
          (emit (with_queue s1 post) [Event.err_bad_logger x.app_id]) x).trace =
          s1.trace ++ [Event.err_bad_logger x.app_id, Event.err_reuse_item,
            Event.free_item (recycled x)])) ∧
    drain_sink_calls (shared_log_flush_messages (with_queue s (pre ++ x :: post))) =
      drain_sink_calls (shared_log_flush_messages (with_queue s (pre ++ post))) ∧
    (∀ s2, shared_log_flush_messages (with_queue s (pre ++ x :: post)) = .ok s2 →
      Event.err_bad_logger x.app_id ∈ s2.trace ∧
      (recycled x ∈ s2.log_free_message_queue ∨
        Event.free_item (recycled x) ∈ s2.trace)) := by
  have hne : pre ++ x :: post ≠ [] := by simp
  have e1 : shared_log_flush_messages (with_queue s (pre ++ x :: post)) =
      (flush_items pre s).bind (fun s1 =>
        flush_items post (shared_log_reuse_item
          (emit (with_queue s1 post) [Event.err_bad_logger x.app_id]) x)) := by
    show flush_items (pre ++ x :: post) (with_queue s (pre ++ x :: post)) = _
    rw [flush_items_with_queue _ _ _ hne, flush_items_append pre (x :: post) (by simp)]
    congr 1
    funext s1
    rw [flush_items_cons, step_event_bad s1 x hx]
  refine ⟨e1, ?_, ?_, ?_⟩
  · intro s1
    refine ⟨?_, ?_, ?_⟩
    · rw [reuse_sink_calls]
      simp [emit, with_queue, sink_calls_append, sink_calls]
    · intro hacc
      have hacc2 : (emit (with_queue s1 post) [Event.err_bad_logger x.app_id]).alloc.headD true
          = true := hacc
      rw [reuse_eq, if_pos hacc2]
      rfl
    · intro hrej
      have hrej2 : ¬ (emit (with_queue s1 post) [Event.err_bad_logger x.app_id]).alloc.headD true
          = true := by
        show ¬ s1.alloc.headD true = true
        rw [hrej]; simp
      rw [reuse_eq, if_neg hrej2]
      exact ⟨rfl, by simp [emit, with_queue]⟩
  · show drain_sink_calls (flush_items (pre ++ x :: post) (with_queue s (pre ++ x :: post))) =
      drain_sink_calls (flush_items (pre ++ post) (with_queue s (pre ++ post)))
    exact drain_sink_calls_skip pre post x hx _ _ rfl rfl
  · intro s2 h2
    rw [e1] at h2
    cases hpre : flush_items pre s with
    | error f => rw [hpre] at h2; cases h2
    | ok s1 =>
      rw [hpre] at h2
      simp only [Except.bind] at h2
      obtain ⟨ht, hp⟩ := flush_items_grows post _ s2 h2
      constructor
      · apply ht
        apply reuse_trace_grows
        simp [emit]
      · cases reuse_outcome
            (emit (with_queue s1 post) [Event.err_bad_logger x.app_id]) x with
        | inl h => exact Or.inl (hp _ h)
        | inr h => exact Or.inr (ht _ h)

/-- C4 (witness): the queue `[item_a, item_99, item_b]` of `st_cap2`. -/
theorem C4_bad_client_id_skipped_witness :
    ¬ (item_99.app_id ≥ MIN_SH_TS_LOG_CLIENT ∧ item_99.app_id < MAX_SH_TS_LOG_CLIENT) ∧
    drain_sink_calls (shared_log_flush_messages (with_queue st_cap2 [item_a, item_99, item_b])) =
      drain_sink_calls (shared_log_flush_messages (with_queue st_cap2 [item_a, item_b])) ∧
    drain_sink_calls (shared_log_flush_messages (with_queue st_cap2 [item_a, item_b])) =
      .ok [(logger_fn.log_flush_message, item_a), (logger_fn.log_flush_message, item_b)] :=
  ⟨by decide, (C4_bad_client_id_skipped st_cap2 [item_a] [item_b] item_99 (by decide)).2.2.1,
    rfl⟩

/-! ## C5: registration is idempotent once it has succeeded -/

/-- The registry never holds a thread twice: `shared_log_start_use`, the only
operation that inserts, keeps the keys distinct. -/
theorem start_use_keys_nodup (s : State) (p : Nat) (h : (registry_keys s).Nodup) :
    (registry_keys (shared_log_start_use s p)).Nodup := by
  cases hh : s.thread_context_htbl with
  | none => rw [start_use_no_table s p hh]; exact h
  | some nodes =>
    by_cases hp : p ∈ nodes.map Prod.fst
    · rw [start_use_registered s p nodes hh hp]; exact h
    · rw [start_use_fresh s p nodes hh hp]
      have hk : registry_keys s = nodes.map Prod.fst := by simp only [registry_keys, hh]
      rw [hk] at h
      split
      · split
        · simp only [registry_keys, List.map_append, List.map_cons, List.map_nil]
          exact List.Nodup.append h (List.nodup_singleton p) (by simpa using hp)
        · simp only [registry_keys, hh]; exact h
      · simp only [registry_keys, hh]; exact h

/-- C5 (amended): for every registry (a table holding no thread twice) and
every thread, provided the first call of `shared_log_start_use` registers the
thread (the thread is already in the registry, or the allocation of its
context and the insertion succeed), a second call from the same thread returns
the state unchanged: the registry holds exactly one entry for the thread after
the first and after the second call, and the second call announces the thread
to neither the queue nor the stack. -/
theorem C5_start_use_idempotent (s : State) (p : Nat)
    (nodes : List (Nat × log_thread_ctxt_t))
    (h : s.thread_context_htbl = some nodes)
    (hnd : (nodes.map Prod.fst).Nodup)
    (hreg : p ∈ nodes.map Prod.fst ∨
      (s.alloc.headD true = true ∧ s.alloc.tail.headD true = true)) :
    shared_log_start_use (shared_log_start_use s p) p = shared_log_start_use s p ∧
    (registry_keys (shared_log_start_use s p)).count p = 1 ∧
    (registry_keys (shared_log_start_use (shared_log_start_use s p) p)).count p = 1 ∧
    announcements p (shared_log_start_use (shared_log_start_use s p) p).trace =
      announcements p (shared_log_start_use s p).trace := by
  have key : shared_log_start_use (shared_log_start_use s p) p = shared_log_start_use s p ∧
      (registry_keys (shared_log_start_use s p)).count p = 1 := by
    by_cases hp : p ∈ nodes.map Prod.fst
    · rw [start_use_registered s p nodes h hp]
      refine ⟨start_use_registered s p nodes h hp, ?_⟩
      simp only [registry_keys, h]
      exact List.count_eq_one_of_mem hnd hp
    · obtain ⟨h1, h2⟩ := hreg.resolve_left hp
      rw [start_use_fresh s p nodes h hp, if_pos h1, if_pos h2]
      constructor
      · exact start_use_registered _ p (nodes ++ [(p, { tid := p })]) rfl (by simp)
      · simp only [registry_keys, List.map_append, List.map_cons, List.map_nil,
          List.count_append]
        rw [List.count_eq_zero_of_not_mem hp]
        simp
  refine ⟨key.1, key.2, ?_, ?_⟩
  · rw [key.1]; exact key.2
  · rw [key.1]

/-- C5 (witness): thread 7 on an empty registry with no failing allocation. -/
theorem C5_start_use_idempotent_witness :
    shared_log_start_use (shared_log_start_use st_unregistered 7) 7 =
      shared_log_start_use st_unregistered 7 ∧
    (registry_keys (shared_log_start_use st_unregistered 7)).count 7 = 1 ∧
    (registry_keys (shared_log_start_use (shared_log_start_use st_unregistered 7) 7)).count 7
      = 1 ∧
    announcements 7 (shared_log_start_use (shared_log_start_use st_unregistered 7) 7).trace =
      announcements 7 (shared_log_start_use st_unregistered 7).trace :=
  C5_start_use_idempotent st_unregistered 7 [] rfl (by decide) (Or.inr ⟨rfl, rfl⟩)

/-- C5 (counterexample): thread 7 calls twice on an empty registry while the
allocation of the thread context fails both times: no entry for the thread is
left, not one, and the second call announces the thread to the queue and to the
stack a second time. -/
theorem C5_counterexample_context_allocation_fails :
    registry_keys st_unregistered_reject = [] ∧
    registry_keys (shared_log_start_use (shared_log_start_use st_unregistered_reject 7) 7) =
      [] ∧
    announcements 7 (shared_log_start_use st_unregistered_reject 7).trace = (1, 1) ∧
    announcements 7
      (shared_log_start_use (shared_log_start_use st_unregistered_reject 7) 7).trace = (2, 2) ∧
    shared_log_start_use (shared_log_start_use st_unregistered_reject 7) 7 ≠
      shared_log_start_use st_unregistered_reject 7 := by
  refine ⟨rfl, rfl, by decide, by decide, by decide⟩


/-! ## C6: what acquire returns -/

theorem btrunc_btrunc_zero (b : bstring) : btrunc (btrunc b 0) 0 = btrunc b 0 := by
  cases b <;> simp [btrunc]

/-- C6 (amended): every item `get_new_log_queue_item` returns has an empty
buffer and the client id asked for, whether popped or freshly allocated.  In
particular `shared_log_reuse_item` followed by `get_new_log_queue_item(c)`
yields an item with an empty buffer and client id `c` whenever the pool is not
empty after the release, or `c` is in range and the two allocations of a new
item succeed; when the pool accepted the released item, it yields that very
item and the pool is as before the release. -/
theorem C6_acquired_item_clean :
    (∀ (s : State) (c : Int) (item : shared_log_queue_item_t) (s2 : State),
      get_new_log_queue_item s c = .ok (item, s2) →
        blength item.bstr = 0 ∧ item.app_id = c) ∧
    (∀ (s : State) (x : shared_log_queue_item_t) (c : Int),
      ((shared_log_reuse_item s x).log_free_message_queue ≠ [] ∨
        ((c ≥ MIN_SH_TS_LOG_CLIENT ∧ c < MAX_SH_TS_LOG_CLIENT) ∧
          (shared_log_reuse_item s x).alloc.headD true = true ∧
          (shared_log_reuse_item s x).alloc.tail.headD true = true)) →
        ∃ item s2, get_new_log_queue_item (shared_log_reuse_item s x) c = .ok (item, s2) ∧
          blength item.bstr = 0 ∧ item.app_id = c) ∧
    (∀ (s : State) (x : shared_log_queue_item_t) (c : Int),
      s.alloc.headD true = true →
        ∃ item s2, get_new_log_queue_item (shared_log_reuse_item s x) c = .ok (item, s2) ∧
          item.addr = x.addr ∧ blength item.bstr = 0 ∧ item.app_id = c ∧
          s2.log_free_message_queue = s.log_free_message_queue) := by
  have part1 : ∀ (s : State) (c : Int) (item : shared_log_queue_item_t) (s2 : State),
      get_new_log_queue_item s c = .ok (item, s2) →
        blength item.bstr = 0 ∧ item.app_id = c := by
    intro s c item s2 h
    cases hp : s.log_free_message_queue with
    | cons y rest =>
      simp only [get_new_log_queue_item, lfds611_stack_pop, hp, Except.ok.injEq,
        Prod.mk.injEq] at h
      obtain ⟨h1, _⟩ := h
      subst h1
      exact ⟨blength_btrunc_zero _, rfl⟩
    | nil =>
      simp only [get_new_log_queue_item, lfds611_stack_pop, hp] at h
      rw [create_eq] at h
      split at h
      · split at h
        · cases h
        · split at h
          · cases h
          · split at h
            · simp only [Except.ok.injEq, Prod.mk.injEq] at h
              obtain ⟨h1, _⟩ := h
              subst h1
              exact ⟨rfl, rfl⟩
            · cases h
      · cases h
  refine ⟨part1, ?_, ?_⟩
  · intro s x c h
    generalize shared_log_reuse_item s x = r at h
    have hex : ∃ item s2, get_new_log_queue_item r c = .ok (item, s2) := by
      cases hp : r.log_free_message_queue with
      | cons y rest =>
        exact ⟨{ y with app_id := c, bstr := btrunc y.bstr 0 },
          { r with log_free_message_queue := rest },
          by simp only [get_new_log_queue_item, lfds611_stack_pop, hp]⟩
      | nil =>
        obtain ⟨hr, h1, h2⟩ := h.resolve_left (fun hne => hne hp)
        refine ⟨{ addr := r.next_addr, app_id := c, bstr := some [] },
          { r with alloc := r.alloc.tail.tail, next_addr := r.next_addr + 1 }, ?_⟩
        have hget : get_new_log_queue_item r c = create_new_log_queue_item r c := by
          simp only [get_new_log_queue_item, lfds611_stack_pop, hp]
        rw [hget, create_eq, if_pos h1, if_neg (not_not.mpr hr.1), if_neg (not_not.mpr hr.2),
          if_pos h2]
    obtain ⟨item, s2, e⟩ := hex
    exact ⟨item, s2, e, part1 r c item s2 e⟩
  · intro s x c h
    rw [reuse_eq, if_pos h]
    refine ⟨_, _, rfl, rfl, ?_, rfl, rfl⟩
    simp only [recycled, btrunc_btrunc_zero]
    exact blength_btrunc_zero _

/-- C6 (witness): `item_a`, with one byte and client id 0, is acquired for the
client id 1 from a pool holding it, and is released to and re-acquired from
`st_cap2` for the client id 1. -/
theorem C6_acquired_item_clean_witness :
    (get_new_log_queue_item { st_cap2 with log_free_message_queue := [item_a] } 1 =
        .ok ({ item_a with app_id := 1, bstr := some [] }, st_cap2) ∧
      blength (some ([] : List Nat)) = 0 ∧ (1 : Int) = 1) ∧
    ((shared_log_reuse_item st_cap2 item_a).log_free_message_queue ≠ [] ∧
      ∃ item s2, get_new_log_queue_item (shared_log_reuse_item st_cap2 item_a) 1 =
          .ok (item, s2) ∧ blength item.bstr = 0 ∧ item.app_id = 1) ∧
    (st_cap2.alloc.headD true = true ∧
      ∃ item s2, get_new_log_queue_item (shared_log_reuse_item st_cap2 item_a) 1 =
          .ok (item, s2) ∧
        item.addr = item_a.addr ∧ blength item.bstr = 0 ∧ item.app_id = 1 ∧
        s2.log_free_message_queue = st_cap2.log_free_message_queue) :=
  ⟨⟨rfl, C6_acquired_item_clean.1 { st_cap2 with log_free_message_queue := [item_a] } 1
      { item_a with app_id := 1, bstr := some [] } st_cap2 rfl⟩,
    ⟨by decide, C6_acquired_item_clean.2.1 st_cap2 item_a 1 (Or.inl (by decide))⟩,
    rfl, C6_acquired_item_clean.2.2 st_cap2 item_a 1 rfl⟩

/-- C6 (counterexample): on an empty pool whose next allocation fails the
release of `item_a` is rejected and the item destroyed, so the pool stays
empty; the acquire that follows yields no item: for the client id 99 it ends
the process at the range assertion, and for the client id 0, when the next
allocation fails too, at the allocation assertion. -/
theorem C6_counterexample_release_rejected :
    (shared_log_reuse_item st_reject item_a).log_free_message_queue = [] ∧
    get_new_log_queue_item (shared_log_reuse_item st_reject item_a) 99 =
      .error .app_id_above_max ∧
    get_new_log_queue_item (shared_log_reuse_item st_reject2 item_a) 0 =
      .error .alloc_container := by
  refine ⟨rfl, rfl, rfl⟩


/-! ## C7: shutdown -/

theorem step_event_not_free (s : State) (x : shared_log_queue_item_t) (e : Event)
    (h : step_event s x = some e) : freed_addrs [e] = [] := by
  unfold step_event at h
  split at h
  · cases hfn : logger_callback_at s x.app_id with
    | none => rw [hfn] at h; cases h
    | some fn =>
      rw [hfn] at h
      cases h
      rfl
  · cases h
    rfl

theorem reuse_count (s : State) (x : shared_log_queue_item_t) (a : Nat) :
    (pool_addrs (shared_log_reuse_item s x)).count a +
        (freed_addrs (shared_log_reuse_item s x).trace).count a =
      (pool_addrs s).count a + (freed_addrs s.trace).count a +
        (if x.addr = a then 1 else 0) := by
  rw [reuse_eq]
  split
  · simp only [pool_addrs, List.map_cons, List.count_cons, recycled_addr, beq_iff_eq]
    omega
  · simp only [pool_addrs, freed_addrs_append, List.count_append]
    simp only [freed_addrs, List.filterMap_cons, List.filterMap_nil, List.count_cons,
      List.count_nil, recycled_addr, beq_iff_eq]
    omega

/-- The release bookkeeping of a drain that returns: for every address, the
number of times it is on the pool plus the number of times it was freed grows
by the number of times it was queued. -/
theorem flush_items_count (q : List shared_log_queue_item_t) :
    ∀ s s2 : State, flush_items q s = .ok s2 → ∀ a : Nat,
      (pool_addrs s2).count a + (freed_addrs s2.trace).count a =
        (pool_addrs s).count a + (freed_addrs s.trace).count a +
          (q.map (fun x => x.addr)).count a := by
  induction q with
  | nil =>
    intro s s2 h a
    simp only [flush_items, Except.ok.injEq] at h
    subst h
    simp
  | cons x rest ih =>
    intro s s2 h a
    rw [flush_items_cons] at h
    cases hse : step_event s x with
    | none => rw [hse] at h; cases h
    | some e =>
      rw [hse] at h
      simp only at h
      rw [ih _ _ h a, reuse_count]
      have hf : freed_addrs (emit (with_queue s rest) [e]).trace = freed_addrs s.trace := by
        simp only [emit, with_queue, freed_addrs_append, step_event_not_free s x e hse,
          List.append_nil]
      have hp : pool_addrs (emit (with_queue s rest) [e]) = pool_addrs s := rfl
      rw [hf, hp]
      simp only [List.map_cons, List.count_cons, beq_iff_eq]
      omega

theorem destroy_frame (s : State) :
    (hashtable_ts_destroy s).log_free_message_queue = s.log_free_message_queue ∧
    (hashtable_ts_destroy s).log_message_queue = s.log_message_queue ∧
    (hashtable_ts_destroy s).logger_callback = s.logger_callback ∧
    (hashtable_ts_destroy s).thread_context_htbl = none ∧
    sink_calls (hashtable_ts_destroy s).trace = sink_calls s.trace ∧
    freed_addrs (hashtable_ts_destroy s).trace = freed_addrs s.trace := by
  unfold hashtable_ts_destroy
  cases h : s.thread_context_htbl with
  | none => exact ⟨rfl, rfl, rfl, h, rfl, rfl⟩
  | some nodes =>
    refine ⟨rfl, rfl, rfl, rfl, ?_, ?_⟩
    · simp only [sink_calls_append]
      have h1 : sink_calls (nodes.map (fun n => Event.free_ctxt n.1)) = [] := by
        simp [sink_calls, List.filterMap_map, Function.comp_def]
      have h2 : sink_calls [Event.hashtable_destroy] = [] := rfl
      rw [h1, h2, List.append_nil, List.append_nil]
    · simp only [freed_addrs_append]
      have h1 : freed_addrs (nodes.map (fun n => Event.free_ctxt n.1)) = [] := by
        simp [freed_addrs, List.filterMap_map, Function.comp_def]
      have h2 : freed_addrs [Event.hashtable_destroy] = [] := rfl
      rw [h1, h2, List.append_nil, List.append_nil]

/-- C7 (amended): for every queue of distinct items, none of them on the pool
or freed already, each with a client id in range and a sink in the table,
`shared_log_exit` returns: its drain has delivered every queued item to its
sink, in order, in a state `s1` that still has the registry; the registry is
destroyed after that (`s2` is `s1` torn down, with no further sink call) and the
queue is empty; and every one of the items was released exactly once: it is
either on the pool exactly once and its container not freed, or its container
was freed exactly once and it is not on the pool. -/
theorem C7_exit_delivers_then_tears_down (s : State)
    (hsink : ∀ x ∈ s.log_message_queue.elements, has_sink s x)
    (hnd : (queue_addrs s).Nodup)
    (hpool : ∀ a ∈ queue_addrs s, a ∉ pool_addrs s)
    (hfreed : ∀ a ∈ queue_addrs s, a ∉ freed_addrs s.trace) :
    ∃ s1 s2 calls,
      shared_log_flush_messages (emit s [Event.info_entering_exit]) = .ok s1 ∧
      shared_log_exit s = .ok s2 ∧
      sink_calls s1.trace = sink_calls s.trace ++ calls ∧
      calls.map Prod.snd = s.log_message_queue.elements ∧
      (∀ c ∈ calls, logger_callback_at s c.2.app_id = some c.1) ∧
      s1.thread_context_htbl = s.thread_context_htbl ∧
      s2 = emit (hashtable_ts_destroy s1) [Event.info_leaving_exit] ∧
      s2.thread_context_htbl = none ∧
      sink_calls s2.trace = sink_calls s1.trace ∧
      s2.log_message_queue.elements = [] ∧
      ∀ a ∈ queue_addrs s,
        ((pool_addrs s2).count a = 1 ∧ (freed_addrs s2.trace).count a = 0) ∨
        ((pool_addrs s2).count a = 0 ∧ (freed_addrs s2.trace).count a = 1) := by
  have hsink1 : ∀ x ∈ (emit s [Event.info_entering_exit]).log_message_queue.elements,
      has_sink (emit s [Event.info_entering_exit]) x := hsink
  obtain ⟨s1, e, hs, _, hh, _, hempty⟩ := flush_messages_ok _ hsink1
  have hcount := flush_items_count _ _ _ e
  obtain ⟨d1, d2, _, d4, d5, d6⟩ := destroy_frame s1
  refine ⟨s1, emit (hashtable_ts_destroy s1) [Event.info_leaving_exit],
    deliveries s s.log_message_queue.elements, e, ?_, ?_, deliveries_map_snd s _ hsink,
    deliveries_sink s _, hh, rfl, d4, ?_, ?_, ?_⟩
  · simp only [shared_log_exit, e]
  · rw [hs]
    simp [emit, sink_calls_append, sink_calls]
    rfl
  · simp only [emit, sink_calls_append, d5]
    simp [sink_calls]
  · show (hashtable_ts_destroy s1).log_message_queue.elements = []
    rw [d2]; exact hempty
  · intro a ha
    have hc := hcount a
    have h1 : (pool_addrs (emit s [Event.info_entering_exit])).count a = 0 :=
      List.count_eq_zero_of_not_mem (hpool a ha)
    have h2 : (freed_addrs (emit s [Event.info_entering_exit]).trace).count a = 0 := by
      simp only [emit, freed_addrs_append]
      have : freed_addrs [Event.info_entering_exit] = [] := rfl
      rw [this, List.append_nil]
      exact List.count_eq_zero_of_not_mem (hfreed a ha)
    have h3 : ((emit s [Event.info_entering_exit]).log_message_queue.elements.map
        (fun x => x.addr)).count a = 1 := List.count_eq_one_of_mem hnd ha
    rw [h1, h2, h3] at hc
    have h4 : pool_addrs (emit (hashtable_ts_destroy s1) [Event.info_leaving_exit]) =
        pool_addrs s1 := by
      simp only [pool_addrs, emit, d1]
    have h5 : freed_addrs (emit (hashtable_ts_destroy s1) [Event.info_leaving_exit]).trace =
        freed_addrs s1.trace := by
      simp only [emit, freed_addrs_append, d6]
      have : freed_addrs [Event.info_leaving_exit] = [] := rfl
      rw [this, List.append_nil]
    rw [h4, h5]
    omega

/-- C7 (witness): `st_cap2` with `item_a` and `item_b` queued. -/
theorem C7_exit_delivers_then_tears_down_witness :
    ∃ s1 s2 calls,
      shared_log_flush_messages
        (emit (with_queue st_cap2 [item_a, item_b]) [Event.info_entering_exit]) = .ok s1 ∧
      shared_log_exit (with_queue st_cap2 [item_a, item_b]) = .ok s2 ∧
      sink_calls s1.trace = sink_calls (with_queue st_cap2 [item_a, item_b]).trace ++ calls ∧
      calls.map Prod.snd = [item_a, item_b] ∧
      (∀ c ∈ calls, logger_callback_at (with_queue st_cap2 [item_a, item_b]) c.2.app_id =
        some c.1) ∧
      s1.thread_context_htbl = some [(7, { tid := 7 })] ∧
      s2 = emit (hashtable_ts_destroy s1) [Event.info_leaving_exit] ∧
      s2.thread_context_htbl = none ∧
      sink_calls s2.trace = sink_calls s1.trace ∧
      s2.log_message_queue.elements = [] ∧
      ∀ a ∈ [1, 2],
        ((pool_addrs s2).count a = 1 ∧ (freed_addrs s2.trace).count a = 0) ∨
        ((pool_addrs s2).count a = 0 ∧ (freed_addrs s2.trace).count a = 1) :=
  C7_exit_delivers_then_tears_down (with_queue st_cap2 [item_a, item_b])
    (by decide) (by decide) (by decide) (by decide)

/-- C7 (counterexample): in the state `shared_log_init` returns in a build
without `MESSAGE_CHART_GENERATOR`, after thread 8 has submitted one item of the
in-range client id `SH_TS_LOG_MSC`, the queue holds that item and
`shared_log_exit` ends in the call through the null table entry: the item is
not delivered and the registry is not torn down. -/
theorem C7_counterexample_exit_null_sink :
    ∃ s0, st_init_no_msc = .ok s0 ∧
      (item_msc.app_id ≥ MIN_SH_TS_LOG_CLIENT ∧ item_msc.app_id < MAX_SH_TS_LOG_CLIENT) ∧
      (shared_log_item s0 8 (some item_msc)).log_message_queue.elements = [item_msc] ∧
      shared_log_exit (shared_log_item s0 8 (some item_msc)) = .error .null_callback := by
  refine ⟨_, rfl, by decide, rfl, rfl⟩

/-! ## C8: the sink table -/

theorem try_alloc_logger_callback (s : State) :
    (try_alloc s).2.logger_callback = s.logger_callback := by
  rw [try_alloc_eq]

theorem insert_logger_callback (s : State) (k : Nat) (d : log_thread_ctxt_t) :
    (hashtable_ts_insert s k d).2.logger_callback = s.logger_callback := by
  unfold hashtable_ts_insert
  cases s.thread_context_htbl with
  | none => rfl
  | some nodes =>
    simp only
    split
    · rfl
    · rw [try_alloc_eq]
      cases s.alloc.headD true <;> rfl

theorem create_logger_callback (s : State) (c : Int) (item : shared_log_queue_item_t)
    (s2 : State) (h : create_new_log_queue_item s c = .ok (item, s2)) :
    s2.logger_callback = s.logger_callback := by
  rw [create_eq] at h
  split at h
  · split at h
    · cases h
    · split at h
      · cases h
      · split at h
        · simp only [Except.ok.injEq, Prod.mk.injEq] at h
          rw [← h.2]
        · cases h
  · cases h

theorem get_new_logger_callback (s : State) (c : Int) (item : shared_log_queue_item_t)
    (s2 : State) (h : get_new_log_queue_item s c = .ok (item, s2)) :
    s2.logger_callback = s.logger_callback := by
  unfold get_new_log_queue_item at h
  cases hp : lfds611_stack_pop s.log_free_message_queue with
  | none =>
    rw [hp] at h
    exact create_logger_callback s c item s2 h
  | some r =>
    rw [hp] at h
    simp only [Except.ok.injEq, Prod.mk.injEq] at h
    rw [← h.2]

theorem push_logger_callback (s : State) (x : shared_log_queue_item_t) :
    (lfds611_stack_guaranteed_push s x).2.logger_callback = s.logger_callback := by
  rw [push_eq]
  split <;> rfl

theorem init_seed_logger_callback (n : Nat) :
    ∀ s s2 : State, init_seed n s = .ok s2 → s2.logger_callback = s.logger_callback := by
  induction n with
  | zero =>
    intro s s2 h
    simp only [init_seed, Except.ok.injEq] at h
    rw [h]
  | succ n ih =>
    intro s s2 h
    simp only [init_seed] at h
    cases hc : create_new_log_queue_item s MIN_SH_TS_LOG_CLIENT with
    | error f => rw [hc] at h; cases h
    | ok r =>
      obtain ⟨item, s1⟩ := r
      rw [hc] at h
      simp only at h
      have hpush := push_logger_callback s1 item
      cases hp : lfds611_stack_guaranteed_push s1 item with
      | mk b s3 =>
        rw [hp] at h hpush
        cases b with
        | false => cases h
        | true =>
          simp only at h hpush
          rw [ih _ _ h, hpush, create_logger_callback s MIN_SH_TS_LOG_CLIENT item s1 hc]

theorem flush_items_logger_callback (q : List shared_log_queue_item_t) :
    ∀ s s2 : State, flush_items q s = .ok s2 → s2.logger_callback = s.logger_callback := by
  induction q with
  | nil =>
    intro s s2 h
    simp only [flush_items, Except.ok.injEq] at h
    rw [h]
  | cons x rest ih =>
    intro s s2 h
    rw [flush_items_cons] at h
    cases hse : step_event s x with
    | none => rw [hse] at h; cases h
    | some e =>
      rw [hse] at h
      simp only at h
      rw [ih _ _ h, reuse_logger_callback]
      rfl

theorem exit_logger_callback (s s2 : State) (h : shared_log_exit s = .ok s2) :
    s2.logger_callback = s.logger_callback := by
  unfold shared_log_exit at h
  cases hf : shared_log_flush_messages (emit s [Event.info_entering_exit]) with
  | error f => rw [hf] at h; cases h
  | ok s1 =>
    rw [hf] at h
    simp only [Except.ok.injEq] at h
    rw [← h]
    show (hashtable_ts_destroy s1).logger_callback = _
    rw [(destroy_frame s1).2.2.1]
    exact flush_items_logger_callback _ (emit s [Event.info_entering_exit]) s1 hf

theorem task_loop_logger_callback (ts ts2 : TaskState) (r : Option MessagesIds)
    (h : shared_log_task_loop ts r = .ok ts2) :
    ts2.log.logger_callback = ts.log.logger_callback := by
  unfold shared_log_task_loop at h
  simp only at h
  split at h
  · simp only [Except.ok.injEq] at h; rw [h]
  · cases hf : shared_log_flush_messages ts.log with
    | error f => rw [hf] at h; cases h
    | ok l =>
      rw [hf] at h
      simp only [Except.ok.injEq] at h
      rw [← h]
      exact flush_items_logger_callback _ _ _ hf
  · cases hf : shared_log_exit (timer_remove ts.timer_id ts).log with
    | error f => rw [hf] at h; cases h
    | ok l =>
      rw [hf] at h
      simp only [Except.ok.injEq] at h
      rw [← h]
      exact exit_logger_callback _ _ hf
  · simp only [Except.ok.injEq] at h; rw [h]

theorem try_alloc_snd_logger_callback {a c : State} {b : Bool} (h : try_alloc a = (b, c)) :
    c.logger_callback = a.logger_callback := by
  have h1 := try_alloc_logger_callback a
  rw [h] at h1
  exact h1

theorem insert_or_report_logger_callback (s : State) (p : Nat) (d : log_thread_ctxt_t) :
    ((match hashtable_ts_insert s p d with
      | (.HASH_TABLE_OK, t) => (some d, t)
      | (_, t) => (none, emit t [Event.err_register_ctxt, Event.free_ctxt p]) :
        Option log_thread_ctxt_t × State)).2.logger_callback =
      s.logger_callback := by
  have h1 := insert_logger_callback s p d
  cases h : hashtable_ts_insert s p d with
  | mk rc t =>
    rw [h] at h1
    cases rc <;> exact h1

/-- The sink table `shared_log_init` leaves: the entries it writes on top of the
table it found. -/
theorem init_logger_callback (mcg : Bool)
    (log_message : Option log_thread_ctxt_t → State → Except Fault State)
    (max_threadsP : Int) (p : Nat) (t : Int) (g s : State)
    (hlm : ∀ c st st2, log_message c st = .ok st2 → st2.logger_callback = st.logger_callback)
    (h : shared_log_init mcg log_message max_threadsP p t g = .ok s) :
    s.logger_callback =
      if mcg = true then
        (g.logger_callback.set SH_TS_LOG_TXT.toNat (some logger_fn.log_flush_message)).set
          SH_TS_LOG_MSC.toNat (some logger_fn.msc_flush_message)
      else g.logger_callback.set SH_TS_LOG_TXT.toNat (some logger_fn.log_flush_message) := by
  unfold shared_log_init at h
  simp only at h
  split at h
  · cases h
  · split at h
    · cases h
    · split at h
      · cases h
      · split at h
        · cases h
        · rename_i _ s6 h1 _ s8 h2 _ s10 h3 _ s12 h4
          cases hseed : init_seed (max_threadsP * 30).toNat
              (shared_log_start_use
                { s12 with log_message_queue :=
                    { elements := [], number_elements := LOG_MAX_QUEUE_ELEMENTS } } p) with
          | error f => rw [hseed] at h; cases h
          | ok s15 =>
            rw [hseed] at h
            simp only at h
            rw [hlm _ _ _ h]
            show s15.logger_callback = _
            rw [init_seed_logger_callback _ _ _ hseed, start_use_logger_callback]
            show s12.logger_callback = _
            rw [try_alloc_snd_logger_callback h4]
            show s10.logger_callback = _
            rw [try_alloc_snd_logger_callback h3, insert_or_report_logger_callback,
              try_alloc_snd_logger_callback h2]
            show s6.logger_callback = _
            rw [try_alloc_snd_logger_callback h1, try_alloc_logger_callback]
            cases mcg <;> rfl

/-- C8 (amended): run on the zero-initialised global, `shared_log_init` leaves
the sink table with `log_flush_message` at `SH_TS_LOG_TXT` and, only in a build
with `MESSAGE_CHART_GENERATOR`, `msc_flush_message` at `SH_TS_LOG_MSC`; without
the flag that entry stays null.  With the flag every client id in
`[MIN_SH_TS_LOG_CLIENT, MAX_SH_TS_LOG_CLIENT)` has a sink.  No operation after
init changes the table: release, acquire, registration, submit, drain, shutdown
and a turn of the flush task all leave it as it is. -/
theorem C8_sink_table_after_init (mcg : Bool)
    (log_message : Option log_thread_ctxt_t → State → Except Fault State)
    (max_threadsP : Int) (p : Nat) (t : Int) (g : State)
    (hg : g.logger_callback = [none, none])
    (hlm : ∀ c st st2, log_message c st = .ok st2 → st2.logger_callback = st.logger_callback) :
    (∀ s, shared_log_init mcg log_message max_threadsP p t g = .ok s →
      logger_callback_at s SH_TS_LOG_TXT = some logger_fn.log_flush_message ∧
      logger_callback_at s SH_TS_LOG_MSC =
        (if mcg = true then some logger_fn.msc_flush_message else none) ∧
      (mcg = true → ∀ id : Int, id ≥ MIN_SH_TS_LOG_CLIENT → id < MAX_SH_TS_LOG_CLIENT →
        (logger_callback_at s id).isSome = true)) ∧
    (∀ (s : State) (x : shared_log_queue_item_t),
      (shared_log_reuse_item s x).logger_callback = s.logger_callback) ∧
    (∀ (s : State) (c : Int) (item : shared_log_queue_item_t) (s2 : State),
      get_new_log_queue_item s c = .ok (item, s2) → s2.logger_callback = s.logger_callback) ∧
    (∀ (s : State) (q : Nat), (shared_log_start_use s q).logger_callback = s.logger_callback) ∧
    (∀ (s : State) (q : Nat) (m : Option shared_log_queue_item_t),
      (shared_log_item s q m).logger_callback = s.logger_callback) ∧
    (∀ s s2 : State, shared_log_flush_messages s = .ok s2 →
      s2.logger_callback = s.logger_callback) ∧
    (∀ s s2 : State, shared_log_exit s = .ok s2 → s2.logger_callback = s.logger_callback) ∧
    (∀ (ts ts2 : TaskState) (r : Option MessagesIds), shared_log_task_loop ts r = .ok ts2 →
      ts2.log.logger_callback = ts.log.logger_callback) := by
  refine ⟨?_, reuse_logger_callback, get_new_logger_callback, start_use_logger_callback,
    item_logger_callback, fun s s2 h => flush_items_logger_callback _ s s2 h,
    exit_logger_callback, fun ts ts2 r h => task_loop_logger_callback ts ts2 r h⟩
  intro s h
  have hcb := init_logger_callback mcg log_message max_threadsP p t g s hlm h
  rw [hg] at hcb
  cases mcg with
  | false =>
    simp only [Bool.false_eq_true, if_false] at hcb ⊢
    refine ⟨?_, ?_, fun hf => absurd hf (by simp)⟩
    · simp only [logger_callback_at, hcb]; rfl
    · simp only [logger_callback_at, hcb]; rfl
  | true =>
    simp only [if_true] at hcb ⊢
    refine ⟨?_, ?_, ?_⟩
    · simp only [logger_callback_at, hcb]; rfl
    · simp only [logger_callback_at, hcb]; rfl
    · intro _ id h1 h2
      simp only [MIN_SH_TS_LOG_CLIENT, MAX_SH_TS_LOG_CLIENT] at h1 h2
      have hid : id = 0 ∨ id = 1 := by omega
      cases hid with
      | inl h0 => subst h0; simp only [logger_callback_at, hcb]; rfl
      | inr h0 => subst h0; simp only [logger_callback_at, hcb]; rfl

/-- C8 (witness): `shared_log_init` on the zero-initialised global `g_shared_log`
in a build with `MESSAGE_CHART_GENERATOR` (`st_init_msc`). -/
theorem C8_sink_table_after_init_witness :
    ∃ s, st_init_msc = .ok s ∧
      logger_callback_at s SH_TS_LOG_TXT = some logger_fn.log_flush_message ∧
      logger_callback_at s SH_TS_LOG_MSC = some logger_fn.msc_flush_message ∧
      s.log_free_message_queue.length = 30 :=
  ⟨_, rfl,
    ((C8_sink_table_after_init true (fun _ st => .ok st) 1 7 0 g_shared_log rfl
      (fun _ _ _ h => by cases h; rfl)).1 _ rfl).1,
    ((C8_sink_table_after_init true (fun _ st => .ok st) 1 7 0 g_shared_log rfl
      (fun _ _ _ h => by cases h; rfl)).1 _ rfl).2.1,
    rfl⟩

/-- C8 (counterexample): after `shared_log_init` in a build without
`MESSAGE_CHART_GENERATOR` the client id `SH_TS_LOG_MSC` is in
`[MIN_SH_TS_LOG_CLIENT, MAX_SH_TS_LOG_CLIENT)` and its table entry is null, and
a drain that finds such an item queued calls the null entry. -/
theorem C8_counterexample_msc_entry_null :
    ∃ s, st_init_no_msc = .ok s ∧
      (SH_TS_LOG_MSC ≥ MIN_SH_TS_LOG_CLIENT ∧ SH_TS_LOG_MSC < MAX_SH_TS_LOG_CLIENT) ∧
      logger_callback_at s SH_TS_LOG_MSC = none ∧
      shared_log_flush_messages (with_queue s [item_msc]) = .error .null_callback := by
  refine ⟨_, rfl, by decide, rfl, rfl⟩


/-! ## C9: the flush task -/

theorem task_loop_timer (ts : TaskState) :
    shared_log_task_loop ts (some .TIMER_HAS_EXPIRED) =
      match shared_log_flush_messages ts.log with
      | .error f => .error f
      | .ok l =>
        .ok { log := l, timers := ts.timers ++ [flush_timer ts.next_timer_id],
              next_timer_id := ts.next_timer_id + 1, timer_id := ts.next_timer_id,
              exited := ts.exited } := by
  unfold shared_log_task_loop
  simp only
  cases shared_log_flush_messages ts.log <;> rfl

/-- In every state of the task before a `TERMINATE_MESSAGE` the task has not
left and exactly one timer is pending: the flush timer whose id `timer_id`
holds. -/
theorem reachable_one_timer (s0 : State) (p : Nat) (ts : TaskState)
    (h : Reachable s0 p ts) :
    ts.exited = false ∧ ts.timers = [flush_timer ts.timer_id] := by
  induction h with
  | start => exact ⟨rfl, rfl⟩
  | expiry ts ts1 t _ ht hstep ih =>
    obtain ⟨hex, htm⟩ := ih
    rw [htm, List.mem_singleton] at ht
    subst ht
    have hexp : timer_expire (flush_timer ts.timer_id) ts = { ts with timers := [] } := by
      simp only [timer_expire, flush_timer, htm]
      simp
    rw [hexp, task_loop_timer] at hstep
    cases hf : shared_log_flush_messages ts.log with
    | error f =>
      have hf2 : shared_log_flush_messages ({ ts with timers := [] } : TaskState).log =
          .error f := hf
      rw [hf2] at hstep
      cases hstep
    | ok l =>
      have hf2 : shared_log_flush_messages ({ ts with timers := [] } : TaskState).log =
          .ok l := hf
      rw [hf2] at hstep
      simp only [Except.ok.injEq] at hstep
      subst hstep
      exact ⟨hex, rfl⟩
  | other ts ts1 id _ hstep ih =>
    simp only [shared_log_task_loop, Except.ok.injEq] at hstep
    subst hstep
    exact ih
  | idle ts ts1 _ hstep ih =>
    simp only [shared_log_task_loop, Except.ok.injEq] at hstep
    subst hstep
    exact ih
  | submit ts q m _ ih => exact ih
  | acquire ts app_id item l _ _ ih => exact ih
  | recycle ts item _ ih => exact ih

/-- C9 (amended): in every state of `shared_log_task` reachable from its start
before a `TERMINATE_MESSAGE` exactly one timer is pending, the one-shot flush
timer of 0 s and 50000 us whose id the task holds; on the expiry of that timer
the turn of the loop for `TIMER_HAS_EXPIRED` is exactly one drain of the
pipeline and, when the drain returns, ends with exactly one pending timer
again, a newly armed flush timer of the same period; the drain returns, with
the queue empty, whenever every queued item has a client id in range with a
sink in the table; a message other than `TIMER_HAS_EXPIRED` and
`TERMINATE_MESSAGE` (and no message at all) returns the task state unchanged:
queue, pool, registry, pending timer and trace, so no sink is invoked. -/
theorem C9_flush_task_step (s0 : State) (p : Nat) :
    (∀ ts, Reachable s0 p ts →
      ts.exited = false ∧
      ts.timers = [{ timer_id := ts.timer_id, interval_sec := 0, interval_us := 50000,
                     type := timer_type_t.TIMER_ONE_SHOT }]) ∧
    (∀ ts t, Reachable s0 p ts → t ∈ ts.timers →
      shared_log_task_loop (timer_expire t ts) (some .TIMER_HAS_EXPIRED) =
        match shared_log_flush_messages ts.log with
        | .error f => .error f
        | .ok l =>
          .ok { log := l,
                timers := [{ timer_id := ts.next_timer_id, interval_sec := 0,
                             interval_us := 50000, type := timer_type_t.TIMER_ONE_SHOT }],
                next_timer_id := ts.next_timer_id + 1,
                timer_id := ts.next_timer_id,
                exited := false }) ∧
    (∀ ts t, Reachable s0 p ts → t ∈ ts.timers →
      (∀ x ∈ ts.log.log_message_queue.elements, has_sink ts.log x) →
      ∃ ts1, shared_log_task_loop (timer_expire t ts) (some .TIMER_HAS_EXPIRED) = .ok ts1 ∧
        Reachable s0 p ts1 ∧
        ts1.log.log_message_queue.elements = [] ∧
        sink_calls ts1.log.trace =
          sink_calls ts.log.trace ++ deliveries ts.log ts.log.log_message_queue.elements) ∧
    (∀ ts id, shared_log_task_loop ts (some (.OTHER id)) = .ok ts) ∧
    (∀ ts, shared_log_task_loop ts none = .ok ts) := by
  have step : ∀ ts t, Reachable s0 p ts → t ∈ ts.timers →
      shared_log_task_loop (timer_expire t ts) (some .TIMER_HAS_EXPIRED) =
        match shared_log_flush_messages ts.log with
        | .error f => .error f
        | .ok l =>
          .ok { log := l,
                timers := [{ timer_id := ts.next_timer_id, interval_sec := 0,
                             interval_us := 50000, type := timer_type_t.TIMER_ONE_SHOT }],
                next_timer_id := ts.next_timer_id + 1,
                timer_id := ts.next_timer_id,
                exited := false } := by
    intro ts t h ht
    obtain ⟨hex, htm⟩ := reachable_one_timer s0 p ts h
    rw [htm, List.mem_singleton] at ht
    subst ht
    have hexp : timer_expire (flush_timer ts.timer_id) ts = { ts with timers := [] } := by
      simp only [timer_expire, flush_timer, htm]
      simp
    rw [hexp, task_loop_timer]
    have hlog : ({ ts with timers := [] } : TaskState).log = ts.log := rfl
    rw [hlog]
    cases shared_log_flush_messages ts.log with
    | error f => rfl
    | ok l =>
      simp only [List.nil_append]
      rw [show ({ ts with timers := [] } : TaskState).exited = false from hex]
      rfl
  refine ⟨fun ts h => reachable_one_timer s0 p ts h, step, ?_, fun _ _ => rfl, fun _ => rfl⟩
  intro ts t h ht hsink
  obtain ⟨l, e, hs, _, _, _, hempty⟩ := flush_messages_ok ts.log hsink
  have hstep := step ts t h ht
  rw [e] at hstep
  exact ⟨_, hstep, Reachable.expiry ts _ t h ht hstep, hempty, hs⟩

/-- C9 (witness): the task started by thread 7 on `st_cap2`, after thread 8 has
submitted `item_a`: the state is reachable, one flush timer is pending, and the
turn for its expiry drains `item_a` to its sink and arms the next timer. -/
theorem C9_flush_task_step_witness :
    Reachable st_cap2 7
      { shared_log_task_start st_cap2 7 with
        log := shared_log_item (shared_log_task_start st_cap2 7).log 8 (some item_a) } ∧
    ({ shared_log_task_start st_cap2 7 with
        log := shared_log_item (shared_log_task_start st_cap2 7).log 8 (some item_a) } :
      TaskState).timers =
      [{ timer_id := 0, interval_sec := 0, interval_us := 50000,
         type := timer_type_t.TIMER_ONE_SHOT }] ∧
    ∃ ts1, shared_log_task_loop
        (timer_expire (flush_timer 0)
          { shared_log_task_start st_cap2 7 with
            log := shared_log_item (shared_log_task_start st_cap2 7).log 8 (some item_a) })
        (some .TIMER_HAS_EXPIRED) = .ok ts1 ∧
      sink_calls ts1.log.trace = [(logger_fn.log_flush_message, item_a)] ∧
      ts1.timers = [{ timer_id := 1, interval_sec := 0, interval_us := 50000,
                      type := timer_type_t.TIMER_ONE_SHOT }] :=
  ⟨Reachable.submit _ 8 (some item_a) Reachable.start,
    ((C9_flush_task_step st_cap2 7).1 _
      (Reachable.submit _ 8 (some item_a) Reachable.start)).2,
    _, (C9_flush_task_step st_cap2 7).2.1 _ (flush_timer 0)
      (Reachable.submit _ 8 (some item_a) Reachable.start) (by decide), by decide, rfl⟩

/-- C9 (counterexample): the task is started by thread 7 on the state
`shared_log_init` returns in a build without `MESSAGE_CHART_GENERATOR`, and
thread 8 submits an item of the in-range client id `SH_TS_LOG_MSC`.  The state
is reachable and its flush timer pending, but the turn of the loop for the
expiry of that timer ends in the drain, at the call through the null table
entry: the timer is not armed again. -/
theorem C9_counterexample_drain_ends_task :
    ∃ s0, st_init_no_msc = .ok s0 ∧
      Reachable s0 7
        { shared_log_task_start s0 7 with
          log := shared_log_item (shared_log_task_start s0 7).log 8 (some item_msc) } ∧
      flush_timer 0 ∈ ({ shared_log_task_start s0 7 with
          log := shared_log_item (shared_log_task_start s0 7).log 8 (some item_msc) } :
        TaskState).timers ∧
      shared_log_task_loop
        (timer_expire (flush_timer 0)
          { shared_log_task_start s0 7 with
            log := shared_log_item (shared_log_task_start s0 7).log 8 (some item_msc) })
        (some .TIMER_HAS_EXPIRED) = .error .null_callback := by
  refine ⟨_, rfl, Reachable.submit _ 8 (some item_msc) Reachable.start, by decide, rfl⟩

/-! ## C10: submit on a full queue against release -/

/-- On a full queue, from a registered thread, and when the pool accepts the
push, `shared_log_item` leaves exactly the state `shared_log_reuse_item`
leaves. -/
theorem submit_full_eq_release_accepted (s : State) (p : Nat) (m : shared_log_queue_item_t)
    (nodes : List (Nat × log_thread_ctxt_t))
    (hfull : ¬ s.log_message_queue.elements.length < s.log_message_queue.number_elements)
    (h : s.thread_context_htbl = some nodes) (hp : p ∈ nodes.map Prod.fst)
    (hacc : s.alloc.headD true = true) :
    shared_log_item s p (some m) = shared_log_reuse_item s m := by
  rw [item_dropped s p m hfull, start_use_registered s p nodes h hp, if_pos hacc, reuse_eq,
    if_pos hacc]

/-- C10 (the code at the failing input): the queue of `st_full_reject` is full,
thread 7 is registered and the pool rejects the next push.  Submit and release
of `item_b` leave the same pool and the same queue and both free the container,
but only `shared_log_item` destroys the buffer: `shared_log_reuse_item` frees
the container with the buffer still attached. -/
theorem C10_rejected_release_leaks_buffer :
    st_full_reject.log_message_queue.elements.length =
      st_full_reject.log_message_queue.number_elements ∧
    registry_keys st_full_reject = [7] ∧
    (shared_log_item st_full_reject 7 (some item_b)).log_free_message_queue =
      (shared_log_reuse_item st_full_reject item_b).log_free_message_queue ∧
    (shared_log_item st_full_reject 7 (some item_b)).log_message_queue =
      (shared_log_reuse_item st_full_reject item_b).log_message_queue ∧
    freed_addrs (shared_log_item st_full_reject 7 (some item_b)).trace = [2] ∧
    freed_addrs (shared_log_reuse_item st_full_reject item_b).trace = [2] ∧
    bdestroyed_addrs (shared_log_item st_full_reject 7 (some item_b)).trace = [2] ∧
    bdestroyed_addrs (shared_log_reuse_item st_full_reject item_b).trace = [] ∧
    (shared_log_reuse_item st_full_reject item_b).trace =
      [Event.err_reuse_item, Event.free_item { item_b with bstr := some [] }] ∧
    (shared_log_item st_full_reject 7 (some item_b)).trace =
      [Event.bdestroy 2, Event.free_item { item_b with bstr := none }] := by
  refine ⟨rfl, rfl, rfl, rfl, rfl, rfl, rfl, rfl, rfl, rfl⟩

end SharedTsLog
